import Mathlib

/-!
# mb-users-api: the `User` model of `src/lib/user.js`

A shallow embedding of `src/lib/user.js`: the field set that `User.prototype.post` computes
and hands to `updateUser`, and the responses of `get` and `updateUser`.

* JavaScript values are the JSON-like trees `JSVal`.  A Number is either `nan` or an
  integer `num n`, where `n` is an integer that a double holds: every safe integer
  (`|n| < 2^53`, `isSafeInteger`), which covers node ids and epoch seconds, and beyond
  them the integers `n` with `roundToDouble |n| = |n|`.  Fractions and the infinities are
  not modelled.
* `ToString` prints a safe integer as its decimal digits and a larger Number as
  `Number::toString` does: with the fewest digits that read back as the same double, and
  in exponent form from `1e21` on, so that `parseInt(1e21)` is `1`.  `parseInt` gives the
  Number value, that is the nearest double, of the integer that it reads.  A safe
  integer is read back by `parseInt` as itself (`parseInt_num`), a Number such as `1e21`
  is not; the statements that rest on this ask for Numbers that `parseInt` reads back as
  themselves.
* An object is an association list in property-insertion order (`JSObj`).
* The stored document, the request body and `updateArgs` are objects whose `campaigns`
  property, when defined, is an array of objects (`Doc`).  The loop of lines 161 to 188
  is also given on arrays of any values (`mergeRaw`), where the read `.nid` of line 168
  throws a `TypeError` on `null` and `undefined`; on arrays of objects it throws nothing
  and is `mergeCampaigns`.  A `campaigns` property that is no array is outside the
  embedding.
* `parseInt` and the `Date` getters follow their ECMAScript definitions; the local time
  zone is a parameter `tza` (offset in milliseconds at a given UTC time).
* `doc.campaigns` and `updateArgs.campaigns` are one array after line 158 of the source;
  the writes of the merge loop go to that array, and `PostState.doc` is the stored
  document as the callback leaves it.
* An appended entry is the object of the request itself, so a later write to it also
  changes the request body; no entry of the body is read again after it was appended, and
  the body after the call is not part of the model.
* The store is a parameter of `get` and `updateUser`: a function that gives the arguments
  with which the store calls back, once, for the filter it is handed.  The result of a
  method is the list of its calls of `send`, in order; logging is left out.
-/

namespace MbUsers

/-! ## Values -/

/-- JavaScript values: `nan` and `num n` are the Numbers (`n` an integer that a double
holds), `arr` an Array, `obj` a plain object with its properties in insertion order. -/
inductive JSVal where
  | undefined
  | null
  | bool (b : Bool)
  | nan
  | num (n : Int)
  | str (s : String)
  | arr (xs : List JSVal)
  | obj (fs : List (String × JSVal))

namespace JSVal

mutual
/-- Equality of values is decidable. -/
def decEq : (a b : JSVal) → Decidable (a = b)
  | .undefined, .undefined => isTrue rfl
  | .undefined, .null => isFalse nofun
  | .undefined, .bool _ => isFalse nofun
  | .undefined, .nan => isFalse nofun
  | .undefined, .num _ => isFalse nofun
  | .undefined, .str _ => isFalse nofun
  | .undefined, .arr _ => isFalse nofun
  | .undefined, .obj _ => isFalse nofun
  | .null, .undefined => isFalse nofun
  | .null, .null => isTrue rfl
  | .null, .bool _ => isFalse nofun
  | .null, .nan => isFalse nofun
  | .null, .num _ => isFalse nofun
  | .null, .str _ => isFalse nofun
  | .null, .arr _ => isFalse nofun
  | .null, .obj _ => isFalse nofun
  | .bool _, .undefined => isFalse nofun
  | .bool _, .null => isFalse nofun
  | .bool x, .bool y =>
    if h : x = y then isTrue (congrArg JSVal.bool h)
    else isFalse (fun e => h (bool.inj e))
  | .bool _, .nan => isFalse nofun
  | .bool _, .num _ => isFalse nofun
  | .bool _, .str _ => isFalse nofun
  | .bool _, .arr _ => isFalse nofun
  | .bool _, .obj _ => isFalse nofun
  | .nan, .undefined => isFalse nofun
  | .nan, .null => isFalse nofun
  | .nan, .bool _ => isFalse nofun
  | .nan, .nan => isTrue rfl
  | .nan, .num _ => isFalse nofun
  | .nan, .str _ => isFalse nofun
  | .nan, .arr _ => isFalse nofun
  | .nan, .obj _ => isFalse nofun
  | .num _, .undefined => isFalse nofun
  | .num _, .null => isFalse nofun
  | .num _, .bool _ => isFalse nofun
  | .num _, .nan => isFalse nofun
  | .num x, .num y =>
    if h : x = y then isTrue (congrArg JSVal.num h)
    else isFalse (fun e => h (num.inj e))
  | .num _, .str _ => isFalse nofun
  | .num _, .arr _ => isFalse nofun
  | .num _, .obj _ => isFalse nofun
  | .str _, .undefined => isFalse nofun
  | .str _, .null => isFalse nofun
  | .str _, .bool _ => isFalse nofun
  | .str _, .nan => isFalse nofun
  | .str _, .num _ => isFalse nofun
  | .str x, .str y =>
    if h : x = y then isTrue (congrArg JSVal.str h)
    else isFalse (fun e => h (str.inj e))
  | .str _, .arr _ => isFalse nofun
  | .str _, .obj _ => isFalse nofun
  | .arr _, .undefined => isFalse nofun
  | .arr _, .null => isFalse nofun
  | .arr _, .bool _ => isFalse nofun
  | .arr _, .nan => isFalse nofun
  | .arr _, .num _ => isFalse nofun
  | .arr _, .str _ => isFalse nofun
  | .arr x, .arr y =>
    match decEqList x y with
    | isTrue h => isTrue (congrArg JSVal.arr h)
    | isFalse h => isFalse (fun e => h (arr.inj e))
  | .arr _, .obj _ => isFalse nofun
  | .obj _, .undefined => isFalse nofun
  | .obj _, .null => isFalse nofun
  | .obj _, .bool _ => isFalse nofun
  | .obj _, .nan => isFalse nofun
  | .obj _, .num _ => isFalse nofun
  | .obj _, .str _ => isFalse nofun
  | .obj _, .arr _ => isFalse nofun
  | .obj x, .obj y =>
    match decEqFields x y with
    | isTrue h => isTrue (congrArg JSVal.obj h)
    | isFalse h => isFalse (fun e => h (obj.inj e))
/-- Equality of arrays of values is decidable. -/
def decEqList : (a b : List JSVal) → Decidable (a = b)
  | [], [] => isTrue rfl
  | [], _ :: _ => isFalse nofun
  | _ :: _, [] => isFalse nofun
  | x :: xs, y :: ys =>
    match decEq x y, decEqList xs ys with
    | isTrue h, isTrue hs => isTrue (by rw [h, hs])
    | isFalse h, _ => isFalse (fun e => h (List.cons.inj e).1)
    | _, isFalse hs => isFalse (fun e => hs (List.cons.inj e).2)
/-- Equality of property lists is decidable. -/
def decEqFields : (a b : List (String × JSVal)) → Decidable (a = b)
  | [], [] => isTrue rfl
  | [], _ :: _ => isFalse nofun
  | _ :: _, [] => isFalse nofun
  | (k, x) :: xs, (l, y) :: ys =>
    if hk : k = l then
      match decEq x y, decEqFields xs ys with
      | isTrue h, isTrue hs => isTrue (by rw [hk, h, hs])
      | isFalse h, _ => isFalse (fun e => h (Prod.mk.inj (List.cons.inj e).1).2)
      | _, isFalse hs => isFalse (fun e => hs (List.cons.inj e).2)
    else isFalse (fun e => hk (Prod.mk.inj (List.cons.inj e).1).1)
end

instance : DecidableEq JSVal := decEq

end JSVal

open JSVal

/-- A plain object: its own enumerable properties in insertion order. -/
abbrev JSObj := List (String × JSVal)

/-- Property read `o.k`: the value of the property, `undefined` when `o` has none. -/
def getProp : JSObj → String → JSVal
  | [], _ => undefined
  | (k, v) :: rest, key => if k = key then v else getProp rest key

/-- Whether `o` has an own property `k`. -/
def hasProp : JSObj → String → Bool
  | [], _ => false
  | (k, _) :: rest, key => if k = key then true else hasProp rest key

/-- Property write `o.k = v`: an existing property keeps its place and takes the value,
a new property goes to the end. -/
def setProp : JSObj → String → JSVal → JSObj
  | [], key, v => [(key, v)]
  | (k, w) :: rest, key, v => if k = key then (k, v) :: rest else (k, w) :: setProp rest key v

/-! ## `ToString` and `parseInt` -/

/-- The character of a decimal digit `d < 10`. -/
def digitChar (d : Nat) : Char := Char.ofNat (48 + d)

/-- Decimal digits of `n`, most significant first; `fuel` bounds the number of digits. -/
def natDigits : Nat → Nat → List Char
  | 0, _ => []
  | fuel + 1, n => if n < 10 then [digitChar n] else natDigits fuel (n / 10) ++ [digitChar (n % 10)]

/-- The test `Number.isSafeInteger` on an integer: `|n| ≤ 2^53 - 1`.  A safe integer is
a double, prints as its decimal digits, and `parseInt` reads these digits back as the
same Number. -/
def isSafeInteger (n : Int) : Bool := decide (n.natAbs ≤ 9007199254740991)

/-- The text of `Number::toString` for a safe integer: its decimal digits, with `-` for
a negative one. -/
def intChars (n : Int) : List Char :=
  if n < 0 then '-' :: natDigits (n.natAbs + 1) n.natAbs else natDigits (n.natAbs + 1) n.natAbs

/-- Ten to the power `k`. -/
def pow10 : Nat → Nat
  | 0 => 1
  | k + 1 => 10 * pow10 k

/-- Two to the power `k`. -/
def pow2 : Nat → Nat
  | 0 => 1
  | k + 1 => 2 * pow2 k

/-- The bits of `m` beyond the 53 bits of a significand: the least `e` with
`m / 2^e < 2^53`; `fuel` bounds the search. -/
def excessBits : Nat → Nat → Nat
  | 0, _ => 0
  | fuel + 1, m => if m < 9007199254740992 then 0 else excessBits fuel (m / 2) + 1

/-- The Number value of a natural number: the nearest double, a tie going to the even
significand.  (The overflow to `Infinity` above the largest double is left out.) -/
def roundToDouble (m : Nat) : Nat :=
  let e := excessBits m m
  let q := m / pow2 e
  let r := m % pow2 e
  if pow2 e < 2 * r ∨ (2 * r = pow2 e ∧ q % 2 = 1) then (q + 1) * pow2 e else q * pow2 e

/-- Of the two multiples of `10^z` next to `x`, one whose Number value is `x`, the nearer
one when both have it. -/
def roundTripAt (x z : Nat) : Option Nat :=
  let p := pow10 z
  let lo := x / p * p
  let hi := lo + p
  let okLo : Bool := decide (roundToDouble lo = x)
  let okHi : Bool := decide (roundToDouble hi = x)
  if okLo && (!okHi || decide (x - lo ≤ hi - x)) then some lo
  else if okHi then some hi
  else none

/-- The search of `Number::toString` for the fewest significant digits: a decimal with
`z` trailing zeros is tried, then with `z - 1`, down to `x` itself. -/
def shortestFrom (x : Nat) : Nat → Nat
  | 0 => x
  | z + 1 =>
    match roundTripAt x (z + 1) with
    | some v => v
    | none => shortestFrom x z

/-- The integer `s * 10^(n - k)` of `Number::toString` for the Number `x`: the one with
the fewest significant digits whose Number value is `x`. -/
def shortestValue (x : Nat) : Nat := shortestFrom x ((natDigits (x + 1) x).length - 1)

/-- The digits without the zeros at their end. -/
def dropTrailingZeros (ds : List Char) : List Char :=
  (ds.reverse.dropWhile (fun c => c = '0')).reverse

/-- The text of `Number::toString` for a positive integer Number beyond the safe range:
the digits of `shortestValue` when they are 21 or fewer, else the exponent form
`d.ddde+n`. -/
def numberChars (x : Nat) : List Char :=
  let v := shortestValue x
  let ds := natDigits (v + 1) v
  if ds.length ≤ 21 then ds
  else
    match ds with
    | [] => []
    | d :: rest =>
      let frac := dropTrailingZeros rest
      (if frac = [] then [d] else d :: '.' :: frac)
        ++ 'e' :: '+' :: natDigits ds.length (ds.length - 1)

/-- The text of `Number::toString` for an integer Number. -/
def numChars (n : Int) : List Char :=
  if isSafeInteger n then intChars n
  else if n < 0 then '-' :: numberChars n.natAbs else numberChars n.natAbs

/-- Array elements joined by commas, as `Array.prototype.join` does. -/
def joinComma : List (List Char) → List Char
  | [] => []
  | [x] => x
  | x :: y :: rest => x ++ ',' :: joinComma (y :: rest)

mutual
/-- The abstract operation `ToString`, as a list of characters. -/
def toChars : JSVal → List Char
  | undefined => "undefined".data
  | null => "null".data
  | .bool true => "true".data
  | .bool false => "false".data
  | nan => "NaN".data
  | num n => numChars n
  | str s => s.data
  | arr xs => joinComma (elemChars xs)
  | obj _ => "[object Object]".data
/-- The texts of the elements of an array: empty for `undefined` and `null`. -/
def elemChars : List JSVal → List (List Char)
  | [] => []
  | .undefined :: rest => [] :: elemChars rest
  | .null :: rest => [] :: elemChars rest
  | x :: rest => toChars x :: elemChars rest
end

/-- The characters `StrWhiteSpaceChar` that `parseInt` skips at the start. -/
def isStrWhiteSpace (c : Char) : Bool :=
  let n := c.toNat
  n = 9 || n = 10 || n = 11 || n = 12 || n = 13 || n = 32 || n = 160 || n = 5760 ||
  (8192 ≤ n && n ≤ 8202) || n = 8232 || n = 8233 || n = 8239 || n = 8287 || n = 12288 ||
  n = 65279

/-- Leading white space removed. -/
def trimStart : List Char → List Char
  | [] => []
  | c :: cs => if isStrWhiteSpace c then trimStart cs else c :: cs

/-- The value of `c` as a digit in the given radix, when it is one. -/
def digitVal (radix : Nat) (c : Char) : Option Nat :=
  let n := c.toNat
  let v := if 48 ≤ n ∧ n ≤ 57 then n - 48
    else if 97 ≤ n ∧ n ≤ 122 then n - 87
    else if 65 ≤ n ∧ n ≤ 90 then n - 55
    else radix
  if v < radix then some v else none

/-- The digits up to the first character that is no digit of the radix: `acc` is the value
read so far, `none` while no digit has been read. -/
def parseDigits (radix : Nat) : List Char → Option Nat → Option Nat
  | [], acc => acc
  | c :: cs, acc =>
    match digitVal radix c with
    | some d => parseDigits radix cs (some (acc.getD 0 * radix + d))
    | none => acc

/-- The radix and the digits to read after the sign: `0x` or `0X` selects radix 16. -/
def radixAndDigits : List Char → Nat × List Char
  | '0' :: 'x' :: cs => (16, cs)
  | '0' :: 'X' :: cs => (16, cs)
  | cs => (10, cs)

/-- The sign of the text of a number and the text after the sign. -/
def signAndRest : List Char → Int × List Char
  | '-' :: rest => (-1, rest)
  | '+' :: rest => (1, rest)
  | s => (1, s)

/-- The function `parseInt(string)` on a text, with `none` for `NaN`: the Number value of
the integer that the digits denote, with the sign.  (Every digit is read: the leave of the
specification to take the digits after the 20th for zeros is not used.) -/
def parseIntChars (input : List Char) : Option Int :=
  let sr := signAndRest (trimStart input)
  let rd := radixAndDigits sr.2
  match parseDigits rd.1 rd.2 none with
  | some m => some (sr.1 * (roundToDouble m : Int))
  | none => none

/-- The call `parseInt(v)`: `ToString`, then the integer at the start of the text;
`none` stands for `NaN`. -/
def parseInt (v : JSVal) : Option Int := parseIntChars (toChars v)

/-- The comparison `parseInt(x) === v` of a parsed Number with a value: true exactly when
`v` is the same Number (`NaN` equals nothing). -/
def parsedStrictEq : Option Int → JSVal → Bool
  | some n, num m => decide (n = m)
  | _, _ => false

/-! ## `Date` -/

/-- Milliseconds in a day. -/
def msPerDay : Int := 86400000

/-- The day number of a time value: `Day(t) = floor(t / msPerDay)`. -/
def Day (t : Int) : Int := t / msPerDay

/-- The day number of the first day of year `y`. -/
def DayFromYear (y : Int) : Int :=
  365 * (y - 1970) + (y - 1969) / 4 - (y - 1901) / 100 + (y - 1601) / 400

/-- The year that contains day number `d`: the largest `y` with `DayFromYear y ≤ d`,
found from the mean year length and one step either way. -/
def yearFromDay (d : Int) : Int :=
  let y := 1970 + d * 400 / 146097
  if d < DayFromYear y then y - 1
  else if DayFromYear (y + 1) ≤ d then y + 1
  else y

/-- The year of a time value: `YearFromTime(t)`. -/
def YearFromTime (t : Int) : Int := yearFromDay (Day t)

/-- The number of days of year `y`: `DaysInYear(y)`. -/
def DaysInYear (y : Int) : Int :=
  if y % 4 ≠ 0 then 365
  else if y % 100 ≠ 0 then 366
  else if y % 400 ≠ 0 then 365
  else 366

/-- One in a leap year, zero otherwise: `InLeapYear(t)`. -/
def InLeapYear (t : Int) : Int :=
  if DaysInYear (YearFromTime t) = 366 then 1 else 0

/-- The day within its year, from zero: `DayWithinYear(t)`. -/
def DayWithinYear (t : Int) : Int := Day t - DayFromYear (YearFromTime t)

/-- The table of `MonthFromTime`: the month, from zero, of day `d` within a year, `l`
being one in a leap year. -/
def monthOfDay (d l : Int) : Int :=
  if d < 31 then 0
  else if d < 59 + l then 1
  else if d < 90 + l then 2
  else if d < 120 + l then 3
  else if d < 151 + l then 4
  else if d < 181 + l then 5
  else if d < 212 + l then 6
  else if d < 243 + l then 7
  else if d < 273 + l then 8
  else if d < 304 + l then 9
  else if d < 334 + l then 10
  else 11

/-- The table of `DateFromTime`: the day of the month, from one, of day `d` within a year
that falls in month `m`. -/
def dateOfDay (d l m : Int) : Int :=
  if m = 0 then d + 1
  else if m = 1 then d - 30
  else if m = 2 then d - 58 - l
  else if m = 3 then d - 89 - l
  else if m = 4 then d - 119 - l
  else if m = 5 then d - 150 - l
  else if m = 6 then d - 180 - l
  else if m = 7 then d - 211 - l
  else if m = 8 then d - 242 - l
  else if m = 9 then d - 272 - l
  else if m = 10 then d - 303 - l
  else d - 333 - l

/-- The month of a time value, from zero: `MonthFromTime(t)`. -/
def MonthFromTime (t : Int) : Int := monthOfDay (DayWithinYear t) (InLeapYear t)

/-- The day of the month of a time value, from one: `DateFromTime(t)`. -/
def DateFromTime (t : Int) : Int :=
  dateOfDay (DayWithinYear t) (InLeapYear t) (MonthFromTime t)

/-- The largest magnitude of a time value that `new Date` accepts (`TimeClip`). -/
def maxTime : Int := 8640000000000000

/-- The time value of `new Date(timestamp * 1000)` for `timestamp = parseInt(..)`: `none` is
the invalid date, which `NaN` and a product outside the range of `TimeClip` give. -/
def newDate (timestamp : Option Int) : Option Int :=
  match timestamp with
  | none => none
  | some ts => if maxTime < (ts * 1000).natAbs then none else some (ts * 1000)

/-- The local time of a time value, `tza` being the offset of the local zone. -/
def LocalTime (tza : Int → Int) (t : Int) : Int := t + tza t

/-- The getter `getDate()`: day of the month in local time, `NaN` on an invalid date. -/
def getDate (tza : Int → Int) : Option Int → JSVal
  | none => nan
  | some t => num (DateFromTime (LocalTime tza t))

/-- The getter `getMonth()`: zero-based month in local time. -/
def getMonth (tza : Int → Int) : Option Int → JSVal
  | none => nan
  | some t => num (MonthFromTime (LocalTime tza t))

/-- The getter `getYear()`: the local year minus 1900. -/
def getYear (tza : Int → Int) : Option Int → JSVal
  | none => nan
  | some t => num (YearFromTime (LocalTime tza t) - 1900)

/-- The zone of UTC. -/
def utc : Int → Int := fun _ => 0

/-! ## `isObjectEmpty` -/

/-- The test `typeof v == 'object'`. -/
def typeofObject : JSVal → Bool
  | null => true
  | arr _ => true
  | obj _ => true
  | _ => false

/-- The keys that `for (var key in v)` visits, in order. -/
def forInKeys : JSVal → List String
  | str s => (List.range s.length).map toString
  | arr xs => (List.range xs.length).map toString
  | obj fs => fs.map Prod.fst
  | _ => []

/-- The helper `isObjectEmpty(obj)` of the source: the loop returns `true` at the first
key, and `false` is returned when there is none. -/
def isObjectEmpty (o : JSVal) : Bool :=
  match forInKeys o with
  | _ :: _ => true
  | [] => false

/-! ## `User.prototype.post` -/

/-- An object of the request or of the store: `campaigns` is its `campaigns` property,
`none` when that is `undefined` and otherwise an array of objects; `props` holds its other
properties. -/
structure Doc where
  props : JSObj
  campaigns : Option (List JSObj)
  deriving DecidableEq

/-- The object literal of line 87. -/
def Doc.empty : Doc := ⟨[], none⟩

/-- Lines 169 to 176: the fields of the request entry that are defined are written to
the matching entry. -/
def updateMatch (reqCampaign c : JSObj) : JSObj :=
  let c := if getProp reqCampaign "signup" ≠ undefined
    then setProp c "signup" (getProp reqCampaign "signup") else c
  if getProp reqCampaign "reportback" ≠ undefined
    then setProp c "reportback" (getProp reqCampaign "reportback") else c

/-- The test of line 168, `parseInt(reqCampaign.nid) === updateArgs.campaigns[j].nid`. -/
def nidMatches (reqCampaign c : JSObj) : Bool :=
  parsedStrictEq (parseInt (getProp reqCampaign "nid")) (getProp c "nid")

/-- Lines 166 to 182, the loop over `j`: the first entry that passes the test of line 168
is updated and the loop stops.  Returns `matchFound` and the array. -/
def matchLoop (reqCampaign : JSObj) : List JSObj → Bool × List JSObj
  | [] => (false, [])
  | c :: rest =>
    if nidMatches reqCampaign c then
      (true, updateMatch reqCampaign c :: rest)
    else
      let r := matchLoop reqCampaign rest
      (r.1, c :: r.2)

/-- Lines 163 to 187, one turn of the loop over `i`: without a match the request entry is
put at index `length` of the array. -/
def mergeStep (campaigns : List JSObj) (reqCampaign : JSObj) : List JSObj :=
  let r := matchLoop reqCampaign campaigns
  if !r.1 then r.2 ++ [reqCampaign] else r.2

/-- Lines 161 to 188: the loop over the entries of the request, on the array that
`doc.campaigns` and `updateArgs.campaigns` share. -/
def mergeCampaigns (campaigns reqCampaigns : List JSObj) : List JSObj :=
  reqCampaigns.foldl mergeStep campaigns

/-- The property read `v.k` for `k` one of `nid`, `signup` and `reportback`: a `TypeError`
(`none`) on `undefined` and `null`, the property of an object, and `undefined` on any
other value, which has no property of these names. -/
def readProp (v : JSVal) (k : String) : Option JSVal :=
  match v with
  | .undefined => none
  | .null => none
  | obj fs => some (getProp fs k)
  | _ => some undefined

/-- Lines 169 to 176 on an entry of any kind: the writes go to an object.  (An entry that
passes the test of line 168 has a Number as `nid`, so it is an object.) -/
def updateMatchRaw (reqSignup reqReportback : JSVal) (c : JSVal) : JSVal :=
  match c with
  | obj fs =>
    let fs := if reqSignup ≠ undefined then setProp fs "signup" reqSignup else fs
    obj (if reqReportback ≠ undefined then setProp fs "reportback" reqReportback else fs)
  | v => v

/-- Lines 168 to 180 for one entry `c` of the array: `none` is a `TypeError`, `some none`
a failed test, `some (some c')` a match that leaves the entry `c'`.  The test reads
`reqCampaign.nid` and then `c.nid`. -/
def matchEntryRaw (reqCampaign c : JSVal) : Option (Option JSVal) :=
  (readProp reqCampaign "nid").bind fun reqNid =>
  (readProp c "nid").bind fun nid =>
  if parsedStrictEq (parseInt reqNid) nid then
    (readProp reqCampaign "signup").bind fun signup =>
    (readProp reqCampaign "reportback").bind fun reportback =>
    some (some (updateMatchRaw signup reportback c))
  else some none

/-- Lines 166 to 182 on an array of any values; `none` is a `TypeError`. -/
def matchLoopRaw (reqCampaign : JSVal) : List JSVal → Option (Bool × List JSVal)
  | [] => some (false, [])
  | c :: rest =>
    match matchEntryRaw reqCampaign c with
    | none => none
    | some (some c') => some (true, c' :: rest)
    | some none => (matchLoopRaw reqCampaign rest).map (fun r => (r.1, c :: r.2))

/-- Lines 163 to 187 on an array of any values. -/
def mergeStepRaw (campaigns : List JSVal) (reqCampaign : JSVal) : Option (List JSVal) :=
  (matchLoopRaw reqCampaign campaigns).map (fun r => if !r.1 then r.2 ++ [reqCampaign] else r.2)

/-- Lines 161 to 188 on arrays of any values: `none` when a read throws a `TypeError`. -/
def mergeRaw (campaigns : List JSVal) : List JSVal → Option (List JSVal)
  | [] => some campaigns
  | reqCampaign :: rest => (mergeStepRaw campaigns reqCampaign).bind (fun W => mergeRaw W rest)

/-- Lines 89 to 115, one of the four plain fields: the value of the request when it is
defined, else the value of the document when there is a document and it is defined. -/
def copyField (doc : Option Doc) (body : Doc) (key : String) (updateArgs : Doc) : Doc :=
  if getProp body.props key ≠ undefined then
    { updateArgs with props := setProp updateArgs.props key (getProp body.props key) }
  else
    match doc with
    | some d =>
      if getProp d.props key ≠ undefined then
        { updateArgs with props := setProp updateArgs.props key (getProp d.props key) }
      else updateArgs
    | none => updateArgs

/-- Lines 117 to 151, one of the two dates: the day, month and year of the time stamp of
the request when it is defined; else the stored structure and year, when there is a
document, the structure has type object and `!isObjectEmpty(..)` holds. -/
def copyDate (tza : Int → Int) (doc : Option Doc) (body : Doc)
    (stampKey dateKey yearKey : String) (updateArgs : Doc) : Doc :=
  if getProp body.props stampKey ≠ undefined then
    let timestamp := parseInt (getProp body.props stampKey)
    let date := newDate timestamp
    let props := setProp updateArgs.props dateKey
      (obj [("day", getDate tza date), ("month", getMonth tza date)])
    { updateArgs with props := setProp props yearKey (getYear tza date) }
  else
    match doc with
    | some d =>
      if typeofObject (getProp d.props dateKey) && !isObjectEmpty (getProp d.props dateKey) then
        let props := setProp updateArgs.props dateKey (getProp d.props dateKey)
        { updateArgs with props := setProp props yearKey (getProp d.props yearKey) }
      else updateArgs
    | none => updateArgs

/-- What the callback of `findOne` has built when it calls `updateUser`: the argument
`updateArgs`, and the document `doc` as the callback leaves it. -/
structure PostState where
  updateArgs : Doc
  doc : Option Doc
  deriving DecidableEq

/-- Lines 153 to 194, for campaigns that are arrays of objects.  With campaigns in the
request and in the document, `updateArgs.campaigns` is the array `doc.campaigns` itself
(line 158) and the loop writes to it; with no stored campaigns it is the array of the
request.  (On arrays of objects no read of the loop throws: `mergeRaw` is the loop on
arrays of any values, with the `TypeError` of the read `.nid` on `null`.) -/
def copyCampaigns (doc : Option Doc) (body : Doc) (updateArgs : Doc) : PostState :=
  match body.campaigns with
  | none => ⟨updateArgs, doc⟩
  | some reqCampaigns =>
    match doc with
    | some d =>
      match d.campaigns with
      | some campaigns =>
        let merged := mergeCampaigns campaigns reqCampaigns
        ⟨{ updateArgs with campaigns := some merged }, some { d with campaigns := some merged }⟩
      | none => ⟨{ updateArgs with campaigns := some reqCampaigns }, doc⟩
    | none => ⟨{ updateArgs with campaigns := some reqCampaigns }, doc⟩

/-- Lines 86 to 194 of `User.prototype.post`: the callback of `findOne` after its error
check, for the document `doc` found (`none` for `null`) and the request body. -/
def postUpdate (tza : Int → Int) (doc : Option Doc) (body : Doc) : PostState :=
  let updateArgs := Doc.empty
  let updateArgs := copyField doc body "subscribed" updateArgs
  let updateArgs := copyField doc body "drupal_uid" updateArgs
  let updateArgs := copyField doc body "mailchimp_status" updateArgs
  let updateArgs := copyField doc body "mobile" updateArgs
  let updateArgs := copyDate tza doc body
    "drupal_register_timestamp" "drupal_register_date" "drupal_register_year" updateArgs
  let updateArgs := copyDate tza doc body
    "birthdate_timestamp" "birthdate" "birthdate_year" updateArgs
  copyCampaigns doc body updateArgs

/-- The field set that `post` hands to `updateUser`. -/
def updateArgsOf (tza : Int → Int) (doc : Option Doc) (body : Doc) : Doc :=
  (postUpdate tza doc body).updateArgs

/-! ## `User.prototype.get` and `User.prototype.updateUser` -/

/-- The conversion `ToBoolean` that an `if` applies to its condition. -/
def truthy : JSVal → Bool
  | undefined => false
  | null => false
  | .bool b => b
  | nan => false
  | num n => decide (n ≠ 0)
  | str s => decide (s ≠ "")
  | arr _ => true
  | obj _ => true

/-- A call of `send` on the response object: `send(status, body)`, or `send(body)` with no
status given. -/
structure Response where
  status : Option Int
  body : JSVal
  deriving DecidableEq

/-- Lines 30 to 36 of `get`: the filter `query` built from `req.query`. -/
def getQuery (reqQuery : JSObj) : JSObj :=
  let query : JSObj := []
  if truthy (getProp reqQuery "email") then
    setProp query "email" (getProp reqQuery "email")
  else if truthy (getProp reqQuery "drupal_uid") then
    setProp query "drupal_uid" (getProp reqQuery "drupal_uid")
  else query

/-- Lines 42 to 59 of `get`, the callback of `findOne`: the calls of `send` it makes, in
order, for the error and the document that the store hands to it. -/
def getCallback (err doc : JSVal) : List Response :=
  if truthy err then [⟨some 500, err⟩]
  else if truthy doc then [⟨some 200, doc⟩]
  else [⟨some 204, obj []⟩]

/-- The method `get`: `findOne` stands for the store and gives the error and the document
with which it calls back for a filter; the result is the list of calls of `send`. -/
def get (findOne : JSObj → JSVal × JSVal) (reqQuery : JSObj) : List Response :=
  let r := findOne (getQuery reqQuery)
  getCallback r.1 r.2

/-- Lines 222 to 232 of `updateUser`, the callback of `update`: the error branch sends
status 500 and does not return, and line 231 sends `true`. -/
def updateUserCallback (err : JSVal) : List Response :=
  let sent : List Response := if truthy err then [⟨some 500, err⟩] else []
  sent ++ [⟨none, .bool true⟩]

/-- The method `updateUser`: `update` stands for the store and gives the error with which
it calls back for the filter `{email}` and the field set; the result is the list of calls
of `send`. -/
def updateUser (update : JSObj → Doc → JSVal) (email : JSVal) (args : Doc) : List Response :=
  updateUserCallback (update [("email", email)] args)

/-! ## Notions used in the statements -/

/-- The ten decimal digits. -/
def decimalDigits : List Char := ['0', '1', '2', '3', '4', '5', '6', '7', '8', '9']

/-- The four plain fields of lines 89 to 115. -/
def plainFields : List String := ["subscribed", "drupal_uid", "mailchimp_status", "mobile"]

/-- The keys of the two dates: time stamp of the request, stored structure, stored year. -/
def dateFields : List (String × String × String) :=
  [("drupal_register_timestamp", "drupal_register_date", "drupal_register_year"),
   ("birthdate_timestamp", "birthdate", "birthdate_year")]

/-- The value of `nid` of a campaign entry. -/
def nidOf (c : JSObj) : JSVal := getProp c "nid"

/-- The integer-coerced campaign id of an entry: `parseInt(c.nid)`, `none` for `NaN`. -/
def coercedNid (c : JSObj) : Option Int := parseInt (getProp c "nid")

/-- The updates of lines 169 to 176 by the request entries, in order, on one entry. -/
def applyUpdates (c : JSObj) (reqs : List JSObj) : JSObj :=
  reqs.foldl (fun c p => updateMatch p c) c

/-- How an entry `r` of the result relates to the stored entry `e` at its index, for the
request entries `reqs`: every property other than `signup` and `reportback` is as in `e`
(`nid` among them), and `signup` (`reportback`) differs from that of `e` only if a request
entry that passes the test of line 168 against `e` supplies it, and then has its value. -/
def EntryUpdated (reqs : List JSObj) (e r : JSObj) : Prop :=
  getProp r "nid" = getProp e "nid" ∧
  (∀ k, k ≠ "signup" → k ≠ "reportback" →
    getProp r k = getProp e k ∧ hasProp r k = hasProp e k) ∧
  (getProp r "signup" ≠ getProp e "signup" →
    ∃ p ∈ reqs, nidMatches p e = true ∧ getProp p "signup" ≠ undefined ∧
      getProp r "signup" = getProp p "signup") ∧
  (getProp r "reportback" ≠ getProp e "reportback" →
    ∃ p ∈ reqs, nidMatches p e = true ∧ getProp p "reportback" ≠ undefined ∧
      getProp r "reportback" = getProp p "reportback")

/-- A sequence of property writes `o.k = v`, in order. -/
def applyWrites (o : JSObj) (ws : List (String × JSVal)) : JSObj :=
  ws.foldl (fun o w => setProp o w.1 w.2) o

/-- The value that the writes leave in property `k`, which held `w` before them. -/
def lastWrite : List (String × JSVal) → String → JSVal → JSVal
  | [], _, w => w
  | (k', v) :: ws, k, w => lastWrite ws k (if k' = k then v else w)

/-- The writes of lines 169 to 176 for one request entry. -/
def writesOf (p : JSObj) : List (String × JSVal) :=
  (if getProp p "signup" ≠ undefined then [("signup", getProp p "signup")] else []) ++
  (if getProp p "reportback" ≠ undefined then [("reportback", getProp p "reportback")] else [])

/-- The writes of a list of request entries, in order. -/
def writesOfAll : List JSObj → List (String × JSVal)
  | [] => []
  | p :: ps => writesOf p ++ writesOfAll ps

/-- The read `doc.key` behind the guard `doc &&`: `undefined` without a document. -/
def docRead (doc : Option Doc) (key : String) : JSVal :=
  match doc with
  | some d => getProp d.props key
  | none => undefined

/-- The stored structure and year that lines 130 to 133 (148 to 151) carry over, when
they do. -/
def dateRead (doc : Option Doc) (dk yk : String) : Option (JSVal × JSVal) :=
  match doc with
  | some d =>
    if typeofObject (getProp d.props dk) && !isObjectEmpty (getProp d.props dk) then
      some (getProp d.props dk, getProp d.props yk)
    else none
  | none => none

/-- The field set before the campaigns are looked at: lines 87 to 151. -/
def scalarArgs (tza : Int → Int) (doc : Option Doc) (body : Doc) : Doc :=
  copyDate tza doc body "birthdate_timestamp" "birthdate" "birthdate_year"
    (copyDate tza doc body
      "drupal_register_timestamp" "drupal_register_date" "drupal_register_year"
      (copyField doc body "mobile" (copyField doc body "mailchimp_status"
        (copyField doc body "drupal_uid" (copyField doc body "subscribed" Doc.empty)))))

/-- The body supplies the field `k` of the field set: directly for a plain field, through
its time stamp for an anniversary structure or its year. -/
def SuppliedBy (body : Doc) (k : String) : Prop :=
  (k ∈ plainFields ∧ getProp body.props k ≠ undefined) ∨
  ∃ t ∈ dateFields, (k = t.2.1 ∨ k = t.2.2) ∧ getProp body.props t.1 ≠ undefined

/-! ## Stored documents and request bodies used as examples -/

/-- A stored document with `subscribed: true` and `mobile: "555"`. -/
def storedSubscriber : Doc := ⟨[("subscribed", .bool true), ("mobile", str "555")], none⟩

/-- A request body with `email` and `subscribed: false`. -/
def unsubscribeBody : Doc := ⟨[("email", str "a@b.com"), ("subscribed", .bool false)], none⟩

/-- A stored document whose registration anniversary is `{day: 1, month: 0}`, year 121. -/
def storedAnniversary : Doc :=
  ⟨[("drupal_register_date", obj [("day", num 1), ("month", num 0)]),
    ("drupal_register_year", num 121)], none⟩

/-- A stored document whose registration anniversary is the empty object. -/
def storedEmptyAnniversary : Doc :=
  ⟨[("drupal_register_date", obj []), ("drupal_register_year", num 121)], none⟩

/-- A request body that holds only the email. -/
def emailBody : Doc := ⟨[("email", str "a@b.com")], none⟩

/-- A request body whose registration time stamp is one second past the last second that
`Date` can hold. -/
def lateStampBody : Doc := ⟨[("drupal_register_timestamp", num 8640000000001)], none⟩

/-- A request body whose birth date is the time stamp `"1609459200"`, sent as text. -/
def birthdateBody : Doc := ⟨[("email", str "a@b.com"), ("birthdate_timestamp", str "1609459200")], none⟩

/-- A stored document whose campaigns are `[{nid: 5, extra: "x", signup: false}]`. -/
def storedCampaignFive : Doc :=
  ⟨[("email", str "a@b.com")],
    some [[("nid", num 5), ("extra", str "x"), ("signup", .bool false)]]⟩

/-- A request body whose campaigns are `[{nid: "5", signup: true}]`. -/
def signupFiveBody : Doc :=
  ⟨[("email", str "a@b.com")], some [[("nid", str "5"), ("signup", .bool true)]]⟩

/-- A stored document whose campaigns are `[{nid: 1, signup: true}]`. -/
def storedCampaignOne : Doc :=
  ⟨[("email", str "a@b.com")], some [[("nid", num 1), ("signup", .bool true)]]⟩

/-- A request body with two entries for campaign 2:
`[{nid: 2, signup: true}, {nid: 2, signup: false}]`. -/
def repeatedTwoBody : Doc :=
  ⟨[("email", str "a@b.com")],
    some [[("nid", num 2), ("signup", .bool true)], [("nid", num 2), ("signup", .bool false)]]⟩

/-- A stored document whose campaigns are `[{nid: 1, signup: true, reportback: false}]`. -/
def storedExample : Doc :=
  ⟨[("email", str "a@b.com")],
    some [[("nid", num 1), ("signup", .bool true), ("reportback", .bool false)]]⟩

/-- A request body whose campaigns are `[{nid: 1, reportback: true}, {nid: 2, signup: true}]`. -/
def exampleBody : Doc :=
  ⟨[("email", str "a@b.com")],
    some [[("nid", num 1), ("reportback", .bool true)], [("nid", num 2), ("signup", .bool true)]]⟩

/-- A request body that sends campaign 2 twice with its id as text:
`[{nid: "2", signup: true}, {nid: "2", reportback: true}]`. -/
def textIdBody : Doc :=
  ⟨[("email", str "a@b.com")],
    some [[("nid", str "2"), ("signup", .bool true)], [("nid", str "2"), ("reportback", .bool true)]]⟩

/-- A request body whose campaigns are `[{nid: "2", signup: true}]`. -/
def textIdOnceBody : Doc :=
  ⟨[("email", str "a@b.com")], some [[("nid", str "2"), ("signup", .bool true)]]⟩

/-- A stored document whose registration anniversary is the empty object and that has no
registration year. -/
def storedEmptyNoYear : Doc := ⟨[("drupal_register_date", obj [])], none⟩

/-- A request body with `email` and `subscribed: true`. -/
def subscribeBody : Doc := ⟨[("email", str "a@b.com"), ("subscribed", .bool true)], none⟩

/-- A request body with `email` and `drupal_uid: 7`. -/
def uidBody : Doc := ⟨[("email", str "a@b.com"), ("drupal_uid", num 7)], none⟩

/-- A request body whose campaigns are `[{nid: "abc", signup: true}]`. -/
def badIdBody : Doc :=
  ⟨[("email", str "a@b.com")], some [[("nid", str "abc"), ("signup", .bool true)]]⟩

/-- A store that finds the document `{email: "a@b.com"}` for the filter
`{email: "a@b.com"}`, finds nothing for another filter with an `email`, and fails on a
filter without `email`. -/
def sampleFindOne (query : JSObj) : JSVal × JSVal :=
  if getProp query "email" = str "a@b.com" then (null, obj [("email", str "a@b.com")])
  else if hasProp query "email" then (null, null)
  else (obj [("message", str "no filter")], undefined)

/-! ## Properties and the round trip of integers through `parseInt` -/

theorem getProp_setProp_same (o : JSObj) (k : String) (v : JSVal) :
    getProp (setProp o k v) k = v := by
  induction o with
  | nil => simp [setProp, getProp]
  | cons p rest ih =>
    obtain ⟨k', w⟩ := p
    by_cases h : k' = k <;> simp [setProp, getProp, h, ih]

theorem getProp_setProp_ne (o : JSObj) (k k' : String) (v : JSVal) (h : k ≠ k') :
    getProp (setProp o k v) k' = getProp o k' := by
  induction o with
  | nil => simp [setProp, getProp, h]
  | cons p rest ih =>
    obtain ⟨k1, w⟩ := p
    by_cases h1 : k1 = k
    · subst h1
      simp [setProp, getProp, h]
    · by_cases h2 : k1 = k'
      · subst h2
        simp [setProp, getProp, h1]
      · simp [setProp, getProp, h1, h2, ih]

theorem hasProp_setProp (o : JSObj) (k k' : String) (v : JSVal) :
    hasProp (setProp o k v) k' = (decide (k = k') || hasProp o k') := by
  induction o with
  | nil => simp [setProp, hasProp]
  | cons p rest ih =>
    obtain ⟨k1, w⟩ := p
    by_cases h1 : k1 = k
    · subst h1
      by_cases h2 : k1 = k' <;> simp [setProp, hasProp, h2]
    · by_cases h2 : k1 = k'
      · subst h2
        simp [setProp, hasProp, h1]
      · simp [setProp, hasProp, h1, h2, ih]

theorem setProp_getProp (o : JSObj) (k : String) (h : hasProp o k = true) :
    setProp o k (getProp o k) = o := by
  induction o with
  | nil => simp [hasProp] at h
  | cons p rest ih =>
    obtain ⟨k1, w⟩ := p
    by_cases h1 : k1 = k
    · simp [setProp, getProp, h1]
    · simp [hasProp, h1] at h
      simp [setProp, getProp, h1, ih h]

theorem setProp_setProp (o : JSObj) (k : String) (v w : JSVal) :
    setProp (setProp o k v) k w = setProp o k w := by
  induction o with
  | nil => simp [setProp]
  | cons p rest ih =>
    obtain ⟨k1, u⟩ := p
    by_cases h1 : k1 = k <;> simp [setProp, h1, ih]

theorem hasProp_of_getProp_ne (o : JSObj) (k : String) (h : getProp o k ≠ undefined) :
    hasProp o k = true := by
  induction o with
  | nil => simp [getProp] at h
  | cons p rest ih =>
    obtain ⟨k1, u⟩ := p
    by_cases h1 : k1 = k
    · simp [hasProp, h1]
    · simp [getProp, h1] at h
      simp [hasProp, h1, ih h]

theorem digitChar_mem (d : Nat) (h : d < 10) : digitChar d ∈ decimalDigits := by
  interval_cases d <;> decide

theorem digitVal_digitChar (d : Nat) (h : d < 10) : digitVal 10 (digitChar d) = some d := by
  interval_cases d <;> decide

theorem digitVal_isSome_of_mem (c : Char) (h : c ∈ decimalDigits) :
    (digitVal 10 c).isSome = true := by
  simp only [decimalDigits, List.mem_cons, List.mem_singleton, List.not_mem_nil, or_false] at h
  rcases h with h | h | h | h | h | h | h | h | h | h <;> subst h <;> decide

theorem parseDigits_append (xs ys : List Char) (acc : Option Nat)
    (h : ∀ c ∈ xs, c ∈ decimalDigits) :
    parseDigits 10 (xs ++ ys) acc = parseDigits 10 ys (parseDigits 10 xs acc) := by
  induction xs generalizing acc with
  | nil => simp [parseDigits]
  | cons c cs ih =>
    have hc := digitVal_isSome_of_mem c (h c (by simp))
    obtain ⟨d, hd⟩ := Option.isSome_iff_exists.mp hc
    simp only [List.cons_append, parseDigits, hd]
    exact ih _ (fun c hc => h c (by simp [hc]))

theorem natDigits_mem (fuel n : Nat) : ∀ c ∈ natDigits fuel n, c ∈ decimalDigits := by
  induction fuel generalizing n with
  | zero => simp [natDigits]
  | succ fuel ih =>
    intro c hc
    unfold natDigits at hc
    split at hc
    · rename_i h
      simp only [List.mem_singleton] at hc
      exact hc ▸ digitChar_mem n h
    · simp only [List.mem_append, List.mem_singleton] at hc
      rcases hc with hc | hc
      · exact ih _ c hc
      · exact hc ▸ digitChar_mem _ (Nat.mod_lt _ (by decide))

theorem natDigits_ne_nil (fuel n : Nat) : natDigits (fuel + 1) n ≠ [] := by
  unfold natDigits
  split <;> simp

theorem parseDigits_natDigits (fuel n : Nat) (h : n < fuel) :
    parseDigits 10 (natDigits fuel n) none = some n := by
  induction fuel generalizing n with
  | zero => omega
  | succ fuel ih =>
    unfold natDigits
    split
    · rename_i h10
      simp [parseDigits, digitVal_digitChar n h10]
    · rename_i h10
      rw [parseDigits_append _ _ _ (natDigits_mem fuel (n / 10)), ih (n / 10) (by omega)]
      simp only [parseDigits, digitVal_digitChar (n % 10) (Nat.mod_lt _ (by decide)),
        Option.getD_some]
      congr 1
      omega

theorem trimStart_digit (c : Char) (cs : List Char) (h : c ∈ decimalDigits) :
    trimStart (c :: cs) = c :: cs := by
  simp only [decimalDigits, List.mem_cons, List.mem_singleton, List.not_mem_nil, or_false] at h
  rcases h with h | h | h | h | h | h | h | h | h | h <;> subst h <;> rfl

theorem radixAndDigits_digits (cs : List Char) (h : ∀ c ∈ cs, c ∈ decimalDigits) :
    radixAndDigits cs = (10, cs) := by
  unfold radixAndDigits
  split
  · exact absurd (h 'x' (by simp)) (by decide)
  · exact absurd (h 'X' (by simp)) (by decide)
  · rfl

theorem signAndRest_digit (c : Char) (cs : List Char) (h : c ∈ decimalDigits) :
    signAndRest (c :: cs) = (1, c :: cs) := by
  unfold signAndRest
  split
  · rename_i h1
    simp only [List.cons.injEq] at h1
    exact absurd (h1.1 ▸ h) (by decide)
  · rename_i h1
    simp only [List.cons.injEq] at h1
    exact absurd (h1.1 ▸ h) (by decide)
  · rfl

theorem excessBits_of_lt (fuel m : Nat) (h : m < 9007199254740992) : excessBits fuel m = 0 := by
  cases fuel with
  | zero => rfl
  | succ fuel => simp [excessBits, h]

/-- A natural number below `2^53` is its own Number value. -/
theorem roundToDouble_of_lt (m : Nat) (h : m < 9007199254740992) : roundToDouble m = m := by
  unfold roundToDouble
  simp only [excessBits_of_lt m m h, pow2, Nat.div_one, Nat.mod_one, Nat.mul_zero, Nat.mul_one]
  rw [if_neg (by omega)]

theorem parseIntChars_natDigits (n : Nat) (h : n < 9007199254740992) :
    parseIntChars (natDigits (n + 1) n) = some (n : Int) := by
  have hmem := natDigits_mem (n + 1) n
  have hne := natDigits_ne_nil n n
  have hp := parseDigits_natDigits (n + 1) n (by omega)
  generalize natDigits (n + 1) n = ds at hmem hne hp
  cases ds with
  | nil => exact absurd rfl hne
  | cons c cs =>
    have hcmem := hmem c (by simp)
    simp [parseIntChars, trimStart_digit c cs hcmem, signAndRest_digit c cs hcmem,
      radixAndDigits_digits _ hmem, hp, roundToDouble_of_lt n h]

theorem parseIntChars_neg_natDigits (n : Nat) (h : n < 9007199254740992) :
    parseIntChars ('-' :: natDigits (n + 1) n) = some (-(n : Int)) := by
  have hmem := natDigits_mem (n + 1) n
  have hp := parseDigits_natDigits (n + 1) n (by omega)
  have h1 : trimStart ('-' :: natDigits (n + 1) n) = '-' :: natDigits (n + 1) n := rfl
  have h2 : signAndRest ('-' :: natDigits (n + 1) n) = (-1, natDigits (n + 1) n) := rfl
  simp [parseIntChars, h1, h2, radixAndDigits_digits _ hmem, hp, roundToDouble_of_lt n h]

/-- A Number that is a safe integer parses back to itself. -/
theorem parseInt_num (n : Int) (h : isSafeInteger n = true) : parseInt (num n) = some n := by
  have hlt : n.natAbs < 9007199254740992 := by
    unfold isSafeInteger at h
    simp only [decide_eq_true_eq] at h
    omega
  unfold parseInt toChars numChars
  rw [if_pos h]
  unfold intChars
  split
  · rename_i h
    rw [parseIntChars_neg_natDigits _ hlt]
    congr 1
    omega
  · rename_i h
    rw [parseIntChars_natDigits _ hlt]
    congr 1
    omega

theorem parseDigits_isSome (radix : Nat) (cs : List Char) :
    ∀ a : Nat, (parseDigits radix cs (some a)).isSome = true := by
  induction cs with
  | nil => intro a; rfl
  | cons c cs ih =>
    intro a
    unfold parseDigits
    split
    · exact ih _
    · rfl

/-- A text that starts with a decimal digit, not followed by `x` or `X`, parses to a
number. -/
theorem parseIntChars_isSome_of_digit (c : Char) (cs : List Char) (hc : c ∈ decimalDigits)
    (hx : ∀ rest, cs ≠ 'x' :: rest ∧ cs ≠ 'X' :: rest) :
    (parseIntChars (c :: cs)).isSome = true := by
  have hr : radixAndDigits (c :: cs) = (10, c :: cs) := by
    unfold radixAndDigits
    split
    · rename_i rest h
      simp only [List.cons.injEq] at h
      exact absurd h.2 (hx rest).1
    · rename_i rest h
      simp only [List.cons.injEq] at h
      exact absurd h.2 (hx rest).2
    · rfl
  obtain ⟨d, hd⟩ := Option.isSome_iff_exists.mp (digitVal_isSome_of_mem c hc)
  have hp := parseDigits_isSome 10 cs d
  obtain ⟨m, hm⟩ := Option.isSome_iff_exists.mp hp
  simp [parseIntChars, trimStart_digit c cs hc, signAndRest_digit c cs hc, hr, parseDigits, hd,
    hm]

theorem parseIntChars_neg_isSome_of_digit (c : Char) (cs : List Char) (hc : c ∈ decimalDigits)
    (hx : ∀ rest, cs ≠ 'x' :: rest ∧ cs ≠ 'X' :: rest) :
    (parseIntChars ('-' :: c :: cs)).isSome = true := by
  have hr : radixAndDigits (c :: cs) = (10, c :: cs) := by
    unfold radixAndDigits
    split
    · rename_i rest h
      simp only [List.cons.injEq] at h
      exact absurd h.2 (hx rest).1
    · rename_i rest h
      simp only [List.cons.injEq] at h
      exact absurd h.2 (hx rest).2
    · rfl
  obtain ⟨d, hd⟩ := Option.isSome_iff_exists.mp (digitVal_isSome_of_mem c hc)
  have hp := parseDigits_isSome 10 cs d
  obtain ⟨m, hm⟩ := Option.isSome_iff_exists.mp hp
  have h1 : trimStart ('-' :: c :: cs) = '-' :: c :: cs := rfl
  have h2 : signAndRest ('-' :: c :: cs) = (-1, c :: cs) := rfl
  simp [parseIntChars, h1, h2, hr, parseDigits, hd, hm]

/-- The text of a Number beyond the safe range starts with a decimal digit that no `x`
follows. -/
theorem numberChars_shape (x : Nat) :
    ∃ c cs, numberChars x = c :: cs ∧ c ∈ decimalDigits ∧
      ∀ rest, cs ≠ 'x' :: rest ∧ cs ≠ 'X' :: rest := by
  unfold numberChars
  simp only
  have hmem := natDigits_mem (shortestValue x + 1) (shortestValue x)
  have hne := natDigits_ne_nil (shortestValue x) (shortestValue x)
  generalize natDigits (shortestValue x + 1) (shortestValue x) = ds at hmem hne
  cases ds with
  | nil => exact absurd rfl hne
  | cons d rest =>
    have hd := hmem d (by simp)
    split
    · refine ⟨d, rest, rfl, hd, fun r => ⟨?_, ?_⟩⟩
      · intro h
        exact absurd (hmem 'x' (by simp [h])) (by decide)
      · intro h
        exact absurd (hmem 'X' (by simp [h])) (by decide)
    · simp only
      split
      · exact ⟨d, _, rfl, hd, fun r => ⟨by simp, by simp⟩⟩
      · exact ⟨d, _, rfl, hd, fun r => ⟨by simp, by simp⟩⟩

/-- Reading a Number with `parseInt` never gives `NaN`. -/
theorem parseInt_num_isSome (n : Int) : (parseInt (num n)).isSome = true := by
  by_cases h : isSafeInteger n = true
  · rw [parseInt_num n h]
    rfl
  · unfold parseInt toChars numChars
    rw [if_neg h]
    obtain ⟨c, cs, hx, hc, hnx⟩ := numberChars_shape n.natAbs
    rw [hx]
    split
    · exact parseIntChars_neg_isSome_of_digit c cs hc hnx
    · exact parseIntChars_isSome_of_digit c cs hc hnx

/-- Numbers and texts beyond the safe range: `1e21` prints as `1e+21` and `parseInt`
reads it as 1; `2^69` prints with 16 significant digits; the double next to `1e23` prints
as `1e+23`; `2^70` prints as `1.1805916207174113e+21`; `parseInt` reads a text of 16
digits as the nearest double, and a Number below `1e21` as itself. -/
theorem parseInt_beyond_safe_samples :
    toChars (num 1000000000000000000000) = "1e+21".data ∧
    parseInt (num 1000000000000000000000) = some 1 ∧
    parseInt (num (-1000000000000000000000)) = some (-1) ∧
    toChars (num 590295810358705651712) = "590295810358705700000".data ∧
    parseInt (num 590295810358705651712) = some 590295810358705651712 ∧
    toChars (num 99999999999999991611392) = "1e+23".data ∧
    toChars (num (-1180591620717411303424)) = "-1.1805916207174113e+21".data ∧
    parseInt (arr [num 1180591620717411303424, num 3]) = some 1 ∧
    toChars (num 9007199254740992) = "9007199254740992".data ∧
    parseInt (str "9007199254740993") = some 9007199254740992 ∧
    parseInt (str "9007199254740995") = some 9007199254740996 ∧
    parseInt (str "1000000000000000000000") = some 1000000000000000000000 := by
  decide

/-- The model of `parseInt` on sample arguments: white space and trailing text, a sign with
a hexadecimal number, text without digits, Numbers, arrays, `undefined` and objects. -/
theorem parseInt_samples :
    parseInt (str "  42px") = some 42 ∧ parseInt (str "-0x1F") = some (-31) ∧
    parseInt (str "abc") = none ∧ parseInt (str "") = none ∧
    parseInt (num (-1205)) = some (-1205) ∧ parseInt (arr [str "7", num 3]) = some 7 ∧
    parseInt (arr [null, num 3]) = none ∧ parseInt undefined = none ∧
    parseInt (obj [("nid", num 1)]) = none ∧ parseInt nan = none := by
  decide

/-! ## The calendar functions -/

theorem DayFromYear_bounds (y : Int) :
    146097 * (y - 1970) - 1000 ≤ 400 * DayFromYear y ∧
      400 * DayFromYear y ≤ 146097 * (y - 1970) + 1000 := by
  unfold DayFromYear
  constructor <;> omega

/-- The year found contains the day. -/
theorem yearFromDay_spec (d : Int) :
    DayFromYear (yearFromDay d) ≤ d ∧ d < DayFromYear (yearFromDay d + 1) := by
  unfold yearFromDay
  simp only
  generalize hq : d * 400 / 146097 = q
  have h1 : 146097 * q ≤ d * 400 := by omega
  have h2 : d * 400 < 146097 * q + 146097 := by omega
  have b0 := DayFromYear_bounds (1970 + q - 1)
  have b2 := DayFromYear_bounds (1970 + q + 1 + 1)
  split
  · rename_i h
    rw [sub_add_cancel]
    exact ⟨by omega, h⟩
  · rename_i h
    split
    · rename_i h3
      exact ⟨h3, by omega⟩
    · rename_i h3
      exact ⟨by omega, by omega⟩

theorem DayFromYear_lt (y z : Int) (h : y < z) : DayFromYear y < DayFromYear z := by
  have h1 : ∀ y, DayFromYear y < DayFromYear (y + 1) := by
    intro y
    unfold DayFromYear
    omega
  have h2 : ∀ n : Nat, DayFromYear y < DayFromYear (y + 1 + n) := by
    intro n
    induction n with
    | zero => simpa using h1 y
    | succ n ih =>
      have := h1 (y + 1 + n)
      have e : y + 1 + ((n + 1 : Nat) : Int) = y + 1 + n + 1 := by
        push_cast
        ring
      rw [e]
      omega
  have := h2 (z - y - 1).toNat
  have e : y + 1 + ((z - y - 1).toNat : Int) = z := by omega
  rwa [e] at this

/-- The year found is the largest year that starts on or before the day, which is the
definition of `YearFromTime`. -/
theorem yearFromDay_largest (d y : Int) (h : DayFromYear y ≤ d) : y ≤ yearFromDay d := by
  by_contra hc
  have h3 := (yearFromDay_spec d).2
  have h4 : DayFromYear (yearFromDay d + 1) ≤ DayFromYear y := by
    rcases (show yearFromDay d + 1 = y ∨ yearFromDay d + 1 < y by omega) with e | e
    · rw [e]
    · exact le_of_lt (DayFromYear_lt _ _ e)
  omega

theorem DayFromYear_succ (y : Int) : DayFromYear (y + 1) = DayFromYear y + DaysInYear y := by
  unfold DayFromYear DaysInYear
  split
  · omega
  · split
    · omega
    · split <;> omega

theorem DayWithinYear_range (t : Int) :
    0 ≤ DayWithinYear t ∧ DayWithinYear t < 365 + InLeapYear t := by
  have h := yearFromDay_spec (Day t)
  rw [DayFromYear_succ] at h
  unfold DayWithinYear InLeapYear YearFromTime
  have hd : DaysInYear (yearFromDay (Day t)) = 365 ∨ DaysInYear (yearFromDay (Day t)) = 366 := by
    unfold DaysInYear
    split
    · exact Or.inl rfl
    · split
      · exact Or.inr rfl
      · split
        · exact Or.inl rfl
        · exact Or.inr rfl
  rcases hd with hd | hd <;> simp [hd] at h ⊢ <;> omega

theorem monthOfDay_range (d l : Int) : 0 ≤ monthOfDay d l ∧ monthOfDay d l ≤ 11 := by
  by_cases h1 : d < 31
  · have hm : monthOfDay d l = 0 := by
      simp only [monthOfDay, h1, if_true, if_false]
    rw [hm]; decide
  by_cases h2 : d < 59 + l
  · have hm : monthOfDay d l = 1 := by
      simp only [monthOfDay, h1, h2, if_true, if_false]
    rw [hm]; decide
  by_cases h3 : d < 90 + l
  · have hm : monthOfDay d l = 2 := by
      simp only [monthOfDay, h1, h2, h3, if_true, if_false]
    rw [hm]; decide
  by_cases h4 : d < 120 + l
  · have hm : monthOfDay d l = 3 := by
      simp only [monthOfDay, h1, h2, h3, h4, if_true, if_false]
    rw [hm]; decide
  by_cases h5 : d < 151 + l
  · have hm : monthOfDay d l = 4 := by
      simp only [monthOfDay, h1, h2, h3, h4, h5, if_true, if_false]
    rw [hm]; decide
  by_cases h6 : d < 181 + l
  · have hm : monthOfDay d l = 5 := by
      simp only [monthOfDay, h1, h2, h3, h4, h5, h6, if_true, if_false]
    rw [hm]; decide
  by_cases h7 : d < 212 + l
  · have hm : monthOfDay d l = 6 := by
      simp only [monthOfDay, h1, h2, h3, h4, h5, h6, h7, if_true, if_false]
    rw [hm]; decide
  by_cases h8 : d < 243 + l
  · have hm : monthOfDay d l = 7 := by
      simp only [monthOfDay, h1, h2, h3, h4, h5, h6, h7, h8, if_true, if_false]
    rw [hm]; decide
  by_cases h9 : d < 273 + l
  · have hm : monthOfDay d l = 8 := by
      simp only [monthOfDay, h1, h2, h3, h4, h5, h6, h7, h8, h9, if_true, if_false]
    rw [hm]; decide
  by_cases h10 : d < 304 + l
  · have hm : monthOfDay d l = 9 := by
      simp only [monthOfDay, h1, h2, h3, h4, h5, h6, h7, h8, h9, h10, if_true, if_false]
    rw [hm]; decide
  by_cases h11 : d < 334 + l
  · have hm : monthOfDay d l = 10 := by
      simp only [monthOfDay, h1, h2, h3, h4, h5, h6, h7, h8, h9, h10, h11, if_true, if_false]
    rw [hm]; decide
  have hm : monthOfDay d l = 11 := by
    simp only [monthOfDay, h1, h2, h3, h4, h5, h6, h7, h8, h9, h10, h11, if_false]
  rw [hm]; decide

theorem dateOfDay_range (d l : Int) (h0 : 0 ≤ d) (hd : d < 365 + l) (hl : l = 0 ∨ l = 1) :
    1 ≤ dateOfDay d l (monthOfDay d l) ∧ dateOfDay d l (monthOfDay d l) ≤ 31 := by
  by_cases h1 : d < 31
  · have hm : monthOfDay d l = 0 := by
      simp only [monthOfDay, h1, if_true, if_false]
    have hv : dateOfDay d l 0 = d + 1 := by
      unfold dateOfDay; norm_num
    rw [hm, hv]; omega
  by_cases h2 : d < 59 + l
  · have hm : monthOfDay d l = 1 := by
      simp only [monthOfDay, h1, h2, if_true, if_false]
    have hv : dateOfDay d l 1 = d - 30 := by
      unfold dateOfDay; norm_num
    rw [hm, hv]; omega
  by_cases h3 : d < 90 + l
  · have hm : monthOfDay d l = 2 := by
      simp only [monthOfDay, h1, h2, h3, if_true, if_false]
    have hv : dateOfDay d l 2 = d - 58 - l := by
      unfold dateOfDay; norm_num
    rw [hm, hv]; omega
  by_cases h4 : d < 120 + l
  · have hm : monthOfDay d l = 3 := by
      simp only [monthOfDay, h1, h2, h3, h4, if_true, if_false]
    have hv : dateOfDay d l 3 = d - 89 - l := by
      unfold dateOfDay; norm_num
    rw [hm, hv]; omega
  by_cases h5 : d < 151 + l
  · have hm : monthOfDay d l = 4 := by
      simp only [monthOfDay, h1, h2, h3, h4, h5, if_true, if_false]
    have hv : dateOfDay d l 4 = d - 119 - l := by
      unfold dateOfDay; norm_num
    rw [hm, hv]; omega
  by_cases h6 : d < 181 + l
  · have hm : monthOfDay d l = 5 := by
      simp only [monthOfDay, h1, h2, h3, h4, h5, h6, if_true, if_false]
    have hv : dateOfDay d l 5 = d - 150 - l := by
      unfold dateOfDay; norm_num
    rw [hm, hv]; omega
  by_cases h7 : d < 212 + l
  · have hm : monthOfDay d l = 6 := by
      simp only [monthOfDay, h1, h2, h3, h4, h5, h6, h7, if_true, if_false]
    have hv : dateOfDay d l 6 = d - 180 - l := by
      unfold dateOfDay; norm_num
    rw [hm, hv]; omega
  by_cases h8 : d < 243 + l
  · have hm : monthOfDay d l = 7 := by
      simp only [monthOfDay, h1, h2, h3, h4, h5, h6, h7, h8, if_true, if_false]
    have hv : dateOfDay d l 7 = d - 211 - l := by
      unfold dateOfDay; norm_num
    rw [hm, hv]; omega
  by_cases h9 : d < 273 + l
  · have hm : monthOfDay d l = 8 := by
      simp only [monthOfDay, h1, h2, h3, h4, h5, h6, h7, h8, h9, if_true, if_false]
    have hv : dateOfDay d l 8 = d - 242 - l := by
      unfold dateOfDay; norm_num
    rw [hm, hv]; omega
  by_cases h10 : d < 304 + l
  · have hm : monthOfDay d l = 9 := by
      simp only [monthOfDay, h1, h2, h3, h4, h5, h6, h7, h8, h9, h10, if_true, if_false]
    have hv : dateOfDay d l 9 = d - 272 - l := by
      unfold dateOfDay; norm_num
    rw [hm, hv]; omega
  by_cases h11 : d < 334 + l
  · have hm : monthOfDay d l = 10 := by
      simp only [monthOfDay, h1, h2, h3, h4, h5, h6, h7, h8, h9, h10, h11, if_true, if_false]
    have hv : dateOfDay d l 10 = d - 303 - l := by
      unfold dateOfDay; norm_num
    rw [hm, hv]; omega
  have hm : monthOfDay d l = 11 := by
    simp only [monthOfDay, h1, h2, h3, h4, h5, h6, h7, h8, h9, h10, h11, if_false]
  have hv : dateOfDay d l 11 = d - 333 - l := by
    unfold dateOfDay; norm_num
  rw [hm, hv]; omega

/-- The month is one of the twelve. -/
theorem MonthFromTime_range (t : Int) : 0 ≤ MonthFromTime t ∧ MonthFromTime t ≤ 11 :=
  monthOfDay_range _ _

/-- The day of the month lies between 1 and 31. -/
theorem DateFromTime_range (t : Int) : 1 ≤ DateFromTime t ∧ DateFromTime t ≤ 31 := by
  have h := DayWithinYear_range t
  have hl : InLeapYear t = 0 ∨ InLeapYear t = 1 := by
    unfold InLeapYear; split <;> simp
  exact dateOfDay_range _ _ h.1 h.2 hl

/-- The model of the `Date` getters in UTC on sample time stamps in seconds: the first
second of 2021, the 29th of February 2000, the last second of 1969, and both ends of the
range of `Date`. -/
theorem date_samples :
    getDate utc (newDate (some 1609459200)) = num 1 ∧
    getMonth utc (newDate (some 1609459200)) = num 0 ∧
    getYear utc (newDate (some 1609459200)) = num 121 ∧
    getDate utc (newDate (some 951782400)) = num 29 ∧
    getMonth utc (newDate (some 951782400)) = num 1 ∧
    getYear utc (newDate (some 951782400)) = num 100 ∧
    getDate utc (newDate (some (-1))) = num 31 ∧
    getMonth utc (newDate (some (-1))) = num 11 ∧
    getYear utc (newDate (some (-1))) = num 69 ∧
    getDate utc (newDate (some 8640000000000)) = num 13 ∧
    getMonth utc (newDate (some 8640000000000)) = num 8 ∧
    getYear utc (newDate (some 8640000000000)) = num 273860 ∧
    getDate utc (newDate (some (-8640000000000))) = num 20 ∧
    getMonth utc (newDate (some (-8640000000000))) = num 3 ∧
    getYear utc (newDate (some (-8640000000000))) = num (-273721) ∧
    getYear utc (newDate (some 8640000000001)) = nan ∧
    getYear utc (newDate none) = nan := by
  decide

/-! ## The plain fields and the dates -/

theorem copyField_campaigns (doc : Option Doc) (body : Doc) (key : String) (u : Doc) :
    (copyField doc body key u).campaigns = u.campaigns := by
  unfold copyField
  split
  · rfl
  · split
    · split <;> rfl
    · rfl

theorem copyField_getProp_ne (doc : Option Doc) (body : Doc) (key k : String) (u : Doc)
    (h : key ≠ k) : getProp (copyField doc body key u).props k = getProp u.props k := by
  unfold copyField
  split
  · exact getProp_setProp_ne _ _ _ _ h
  · split
    · split
      · exact getProp_setProp_ne _ _ _ _ h
      · rfl
    · rfl

theorem copyField_hasProp_ne (doc : Option Doc) (body : Doc) (key k : String) (u : Doc)
    (h : key ≠ k) : hasProp (copyField doc body key u).props k = hasProp u.props k := by
  unfold copyField
  split
  · simp [hasProp_setProp, h]
  · split
    · split
      · simp [hasProp_setProp, h]
      · rfl
    · rfl

theorem copyField_supplied (doc : Option Doc) (body : Doc) (key : String) (u : Doc)
    (h : getProp body.props key ≠ undefined) :
    getProp (copyField doc body key u).props key = getProp body.props key := by
  unfold copyField
  rw [if_pos h]
  exact getProp_setProp_same _ _ _

theorem copyField_stored (d body : Doc) (key : String) (u : Doc)
    (h : getProp body.props key = undefined) (hd : getProp d.props key ≠ undefined) :
    getProp (copyField (some d) body key u).props key = getProp d.props key ∧
      hasProp (copyField (some d) body key u).props key = true := by
  unfold copyField
  simp only [h, ne_eq, not_true_eq_false, if_false, hd, not_false_eq_true, if_true]
  exact ⟨getProp_setProp_same _ _ _, by simp [hasProp_setProp]⟩

theorem copyField_absent (doc : Option Doc) (body : Doc) (key : String) (u : Doc)
    (h : getProp body.props key = undefined)
    (hd : ∀ d, doc = some d → getProp d.props key = undefined) :
    copyField doc body key u = u := by
  unfold copyField
  simp only [h, ne_eq, not_true_eq_false, if_false]
  cases doc with
  | none => rfl
  | some d => simp [hd d rfl]

theorem copyDate_campaigns (tza : Int → Int) (doc : Option Doc) (body : Doc)
    (sk dk yk : String) (u : Doc) :
    (copyDate tza doc body sk dk yk u).campaigns = u.campaigns := by
  unfold copyDate
  split
  · rfl
  · split
    · split <;> rfl
    · rfl

theorem copyDate_getProp_ne (tza : Int → Int) (doc : Option Doc) (body : Doc)
    (sk dk yk k : String) (u : Doc) (h1 : dk ≠ k) (h2 : yk ≠ k) :
    getProp (copyDate tza doc body sk dk yk u).props k = getProp u.props k := by
  unfold copyDate
  split
  · simp only [getProp_setProp_ne _ _ _ _ h2, getProp_setProp_ne _ _ _ _ h1]
  · split
    · split
      · simp only [getProp_setProp_ne _ _ _ _ h2, getProp_setProp_ne _ _ _ _ h1]
      · rfl
    · rfl

theorem copyDate_hasProp_ne (tza : Int → Int) (doc : Option Doc) (body : Doc)
    (sk dk yk k : String) (u : Doc) (h1 : dk ≠ k) (h2 : yk ≠ k) :
    hasProp (copyDate tza doc body sk dk yk u).props k = hasProp u.props k := by
  unfold copyDate
  split
  · simp [hasProp_setProp, h1, h2]
  · split
    · split
      · simp [hasProp_setProp, h1, h2]
      · rfl
    · rfl

theorem copyCampaigns_props (doc : Option Doc) (body : Doc) (u : Doc) :
    (copyCampaigns doc body u).updateArgs.props = u.props := by
  unfold copyCampaigns
  split
  · rfl
  · split
    · split <;> rfl
    · rfl

/-- Reading a plain field of the field set: the value that its own `copyField` left. -/
theorem updateArgsOf_getProp_plain (tza : Int → Int) (doc : Option Doc) (body : Doc)
    (key : String) (hk : key ∈ plainFields) :
    ∃ u : Doc, hasProp u.props key = false ∧ getProp u.props key = undefined ∧
      getProp (updateArgsOf tza doc body).props key
        = getProp (copyField doc body key u).props key ∧
      hasProp (updateArgsOf tza doc body).props key
        = hasProp (copyField doc body key u).props key := by
  simp only [plainFields, List.mem_cons, List.mem_singleton, List.not_mem_nil, or_false] at hk
  unfold updateArgsOf postUpdate
  simp only [copyCampaigns_props]
  rcases hk with rfl | rfl | rfl | rfl
  · refine ⟨Doc.empty, rfl, rfl, ?_, ?_⟩
    · rw [copyDate_getProp_ne _ _ _ _ _ _ _ _ (by decide) (by decide),
        copyDate_getProp_ne _ _ _ _ _ _ _ _ (by decide) (by decide),
        copyField_getProp_ne _ _ _ _ _ (by decide), copyField_getProp_ne _ _ _ _ _ (by decide),
        copyField_getProp_ne _ _ _ _ _ (by decide)]
    · rw [copyDate_hasProp_ne _ _ _ _ _ _ _ _ (by decide) (by decide),
        copyDate_hasProp_ne _ _ _ _ _ _ _ _ (by decide) (by decide),
        copyField_hasProp_ne _ _ _ _ _ (by decide), copyField_hasProp_ne _ _ _ _ _ (by decide),
        copyField_hasProp_ne _ _ _ _ _ (by decide)]
  · refine ⟨copyField doc body "subscribed" Doc.empty, ?_, ?_, ?_, ?_⟩
    · rw [copyField_hasProp_ne _ _ _ _ _ (by decide)]; rfl
    · rw [copyField_getProp_ne _ _ _ _ _ (by decide)]; rfl
    · rw [copyDate_getProp_ne _ _ _ _ _ _ _ _ (by decide) (by decide),
        copyDate_getProp_ne _ _ _ _ _ _ _ _ (by decide) (by decide),
        copyField_getProp_ne _ _ _ _ _ (by decide), copyField_getProp_ne _ _ _ _ _ (by decide)]
    · rw [copyDate_hasProp_ne _ _ _ _ _ _ _ _ (by decide) (by decide),
        copyDate_hasProp_ne _ _ _ _ _ _ _ _ (by decide) (by decide),
        copyField_hasProp_ne _ _ _ _ _ (by decide), copyField_hasProp_ne _ _ _ _ _ (by decide)]
  · refine ⟨copyField doc body "drupal_uid" (copyField doc body "subscribed" Doc.empty),
      ?_, ?_, ?_, ?_⟩
    · rw [copyField_hasProp_ne _ _ _ _ _ (by decide), copyField_hasProp_ne _ _ _ _ _ (by decide)]
      rfl
    · rw [copyField_getProp_ne _ _ _ _ _ (by decide), copyField_getProp_ne _ _ _ _ _ (by decide)]
      rfl
    · rw [copyDate_getProp_ne _ _ _ _ _ _ _ _ (by decide) (by decide),
        copyDate_getProp_ne _ _ _ _ _ _ _ _ (by decide) (by decide),
        copyField_getProp_ne _ _ _ _ _ (by decide)]
    · rw [copyDate_hasProp_ne _ _ _ _ _ _ _ _ (by decide) (by decide),
        copyDate_hasProp_ne _ _ _ _ _ _ _ _ (by decide) (by decide),
        copyField_hasProp_ne _ _ _ _ _ (by decide)]
  · refine ⟨copyField doc body "mailchimp_status" (copyField doc body "drupal_uid"
      (copyField doc body "subscribed" Doc.empty)), ?_, ?_, ?_, ?_⟩
    · rw [copyField_hasProp_ne _ _ _ _ _ (by decide), copyField_hasProp_ne _ _ _ _ _ (by decide),
        copyField_hasProp_ne _ _ _ _ _ (by decide)]
      rfl
    · rw [copyField_getProp_ne _ _ _ _ _ (by decide), copyField_getProp_ne _ _ _ _ _ (by decide),
        copyField_getProp_ne _ _ _ _ _ (by decide)]
      rfl
    · rw [copyDate_getProp_ne _ _ _ _ _ _ _ _ (by decide) (by decide),
        copyDate_getProp_ne _ _ _ _ _ _ _ _ (by decide) (by decide)]
    · rw [copyDate_hasProp_ne _ _ _ _ _ _ _ _ (by decide) (by decide),
        copyDate_hasProp_ne _ _ _ _ _ _ _ _ (by decide) (by decide)]

/-- C5, payload wins: for every stored document (present or absent) and every request
body, a field among `subscribed`, `drupal_uid`, `mailchimp_status` and `mobile` that the
body supplies has the value of the body in the field set handed to `updateUser`. -/
theorem payload_wins (tza : Int → Int) (doc : Option Doc) (body : Doc) (key : String)
    (hk : key ∈ plainFields) (hp : getProp body.props key ≠ undefined) :
    getProp (updateArgsOf tza doc body).props key = getProp body.props key := by
  obtain ⟨u, _, _, hg, _⟩ := updateArgsOf_getProp_plain tza doc body key hk
  rw [hg]
  exact copyField_supplied doc body key u hp

/-- C6, fallback to the stored value: a field among the four that the body does not supply
has the stored value when there is a document and the field is set in it, and is otherwise
absent from the field set. -/
theorem fallback_to_existing (tza : Int → Int) (doc : Option Doc) (body : Doc) (key : String)
    (hk : key ∈ plainFields) (hp : getProp body.props key = undefined) :
    (∀ d, doc = some d → getProp d.props key ≠ undefined →
        hasProp (updateArgsOf tza doc body).props key = true ∧
        getProp (updateArgsOf tza doc body).props key = getProp d.props key) ∧
    ((∀ d, doc = some d → getProp d.props key = undefined) →
        hasProp (updateArgsOf tza doc body).props key = false) := by
  obtain ⟨u, hu, _, hg, hh⟩ := updateArgsOf_getProp_plain tza doc body key hk
  rw [hg, hh]
  constructor
  · rintro d rfl hd
    have := copyField_stored d body key u hp hd
    exact ⟨this.2, this.1⟩
  · intro hd
    rw [copyField_absent doc body key u hp hd]
    exact hu

/-- C5 at a stored `subscribed: true` and a body with `subscribed: false`: the field set
has `false`. -/
theorem payload_wins_witness :
    "subscribed" ∈ plainFields ∧ getProp unsubscribeBody.props "subscribed" ≠ undefined ∧
      getProp (updateArgsOf utc (some storedSubscriber) unsubscribeBody).props "subscribed"
        = .bool false :=
  ⟨by decide, by decide,
    payload_wins utc (some storedSubscriber) unsubscribeBody "subscribed" (by decide) (by decide)⟩

/-- C6 at a stored `mobile: "555"` and a body without `mobile`: the field set has the
stored value; without a stored document the field is absent. -/
theorem fallback_to_existing_witness :
    "mobile" ∈ plainFields ∧ getProp unsubscribeBody.props "mobile" = undefined ∧
      getProp (updateArgsOf utc (some storedSubscriber) unsubscribeBody).props "mobile"
        = str "555" ∧
      hasProp (updateArgsOf utc none unsubscribeBody).props "mobile" = false :=
  ⟨by decide, by decide,
    ((fallback_to_existing utc (some storedSubscriber) unsubscribeBody "mobile" (by decide)
      (by decide)).1 storedSubscriber rfl (by decide)).2,
    (fallback_to_existing utc none unsubscribeBody "mobile" (by decide) (by decide)).2
      (fun _ h => by cases h)⟩

theorem copyDate_supplied (tza : Int → Int) (doc : Option Doc) (body : Doc)
    (sk dk yk : String) (u : Doc) (hne : yk ≠ dk)
    (h : getProp body.props sk ≠ undefined) :
    getProp (copyDate tza doc body sk dk yk u).props dk
        = obj [("day", getDate tza (newDate (parseInt (getProp body.props sk)))),
               ("month", getMonth tza (newDate (parseInt (getProp body.props sk))))] ∧
      getProp (copyDate tza doc body sk dk yk u).props yk
        = getYear tza (newDate (parseInt (getProp body.props sk))) := by
  unfold copyDate
  rw [if_pos h]
  exact ⟨by simp only [getProp_setProp_ne _ _ _ _ hne, getProp_setProp_same],
    getProp_setProp_same _ _ _⟩

/-- Reading a date field of the field set: the value that its own `copyDate` left. -/
theorem updateArgsOf_getProp_date (tza : Int → Int) (doc : Option Doc) (body : Doc)
    (sk dk yk : String) (hk : (sk, dk, yk) ∈ dateFields) :
    yk ≠ dk ∧ ∃ u : Doc, hasProp u.props dk = false ∧ hasProp u.props yk = false ∧
      (∀ k, k = dk ∨ k = yk →
        getProp (updateArgsOf tza doc body).props k
          = getProp (copyDate tza doc body sk dk yk u).props k ∧
        hasProp (updateArgsOf tza doc body).props k
          = hasProp (copyDate tza doc body sk dk yk u).props k) := by
  simp only [dateFields, List.mem_cons, List.mem_singleton, List.not_mem_nil, or_false,
    Prod.mk.injEq] at hk
  unfold updateArgsOf postUpdate
  simp only [copyCampaigns_props]
  rcases hk with ⟨rfl, rfl, rfl⟩ | ⟨rfl, rfl, rfl⟩
  · refine ⟨by decide, (copyField doc body "mobile" (copyField doc body "mailchimp_status"
      (copyField doc body "drupal_uid" (copyField doc body "subscribed" Doc.empty)))),
      ?_, ?_, ?_⟩
    · simp only [copyField_hasProp_ne _ _ _ _ _
        (show "subscribed" ≠ "drupal_register_date" by decide),
        copyField_hasProp_ne _ _ _ _ _ (show "drupal_uid" ≠ "drupal_register_date" by decide),
        copyField_hasProp_ne _ _ _ _ _
        (show "mailchimp_status" ≠ "drupal_register_date" by decide),
        copyField_hasProp_ne _ _ _ _ _ (show "mobile" ≠ "drupal_register_date" by decide)]
      rfl
    · simp only [copyField_hasProp_ne _ _ _ _ _
        (show "subscribed" ≠ "drupal_register_year" by decide),
        copyField_hasProp_ne _ _ _ _ _ (show "drupal_uid" ≠ "drupal_register_year" by decide),
        copyField_hasProp_ne _ _ _ _ _
        (show "mailchimp_status" ≠ "drupal_register_year" by decide),
        copyField_hasProp_ne _ _ _ _ _ (show "mobile" ≠ "drupal_register_year" by decide)]
      rfl
    · rintro k (rfl | rfl)
      · exact ⟨copyDate_getProp_ne _ _ _ _ _ _ _ _ (by decide) (by decide),
          copyDate_hasProp_ne _ _ _ _ _ _ _ _ (by decide) (by decide)⟩
      · exact ⟨copyDate_getProp_ne _ _ _ _ _ _ _ _ (by decide) (by decide),
          copyDate_hasProp_ne _ _ _ _ _ _ _ _ (by decide) (by decide)⟩
  · refine ⟨by decide, copyDate tza doc body "drupal_register_timestamp"
      "drupal_register_date" "drupal_register_year" (copyField doc body "mobile" (copyField doc body "mailchimp_status"
      (copyField doc body "drupal_uid" (copyField doc body "subscribed" Doc.empty)))),
      ?_, ?_, fun k _ => ⟨rfl, rfl⟩⟩
    · simp only [copyDate_hasProp_ne _ _ _ _ _ _ _ _
        (show "drupal_register_date" ≠ "birthdate" by decide)
        (show "drupal_register_year" ≠ "birthdate" by decide),
        copyField_hasProp_ne _ _ _ _ _ (show "subscribed" ≠ "birthdate" by decide),
        copyField_hasProp_ne _ _ _ _ _ (show "drupal_uid" ≠ "birthdate" by decide),
        copyField_hasProp_ne _ _ _ _ _ (show "mailchimp_status" ≠ "birthdate" by decide),
        copyField_hasProp_ne _ _ _ _ _ (show "mobile" ≠ "birthdate" by decide)]
      rfl
    · simp only [copyDate_hasProp_ne _ _ _ _ _ _ _ _
        (show "drupal_register_date" ≠ "birthdate_year" by decide)
        (show "drupal_register_year" ≠ "birthdate_year" by decide),
        copyField_hasProp_ne _ _ _ _ _ (show "subscribed" ≠ "birthdate_year" by decide),
        copyField_hasProp_ne _ _ _ _ _ (show "drupal_uid" ≠ "birthdate_year" by decide),
        copyField_hasProp_ne _ _ _ _ _ (show "mailchimp_status" ≠ "birthdate_year" by decide),
        copyField_hasProp_ne _ _ _ _ _ (show "mobile" ≠ "birthdate_year" by decide)]
      rfl

/-- C7 on the code: `isObjectEmpty` answers `true` for an object that has a key, so a
stored anniversary `{day: 1, month: 0}` with its year is dropped from the field set, and
a stored empty anniversary is carried with its year. -/
theorem timestamp_fallback_inverted :
    isObjectEmpty (obj [("day", num 1), ("month", num 0)]) = true ∧
    isObjectEmpty (obj []) = false ∧
    hasProp (updateArgsOf utc (some storedAnniversary) emailBody).props
      "drupal_register_date" = false ∧
    hasProp (updateArgsOf utc (some storedAnniversary) emailBody).props
      "drupal_register_year" = false ∧
    getProp (updateArgsOf utc (some storedEmptyAnniversary) emailBody).props
      "drupal_register_date" = obj [] ∧
    getProp (updateArgsOf utc (some storedEmptyAnniversary) emailBody).props
      "drupal_register_year" = num 121 := by
  decide

/-- C8 as stated fails outside the range of `Date`: for the time stamp 8640000000001 the
date is invalid and day, month and year are `NaN`, not the 13th of month 8 of 275760. -/
theorem timestamp_conversion_out_of_range :
    getProp (updateArgsOf utc none lateStampBody).props "drupal_register_date"
      = obj [("day", nan), ("month", nan)] ∧
    getProp (updateArgsOf utc none lateStampBody).props "drupal_register_year" = nan ∧
    DateFromTime (8640000000001 * 1000) = 13 ∧ MonthFromTime (8640000000001 * 1000) = 8 ∧
    YearFromTime (8640000000001 * 1000) - 1900 = 273860 ∧
    getProp (updateArgsOf utc none lateStampBody).props "drupal_register_date"
      ≠ obj [("day", num (DateFromTime (8640000000001 * 1000))),
             ("month", num (MonthFromTime (8640000000001 * 1000)))] := by
  decide

/-- C8 as amended: when the body supplies a time stamp that `parseInt` reads as `t` seconds
and `t * 1000` lies in the range of `Date`, the field set has the anniversary
`{day, month}` with the day of the month and the zero-based month of the local calendar
date of `t * 1000` milliseconds and the year field is the full year minus 1900, whatever
the stored document; in UTC `t = 1609459200` gives `{day: 1, month: 0}` and year 121. -/
theorem timestamp_conversion (tza : Int → Int) (doc : Option Doc) (body : Doc)
    (sk dk yk : String) (t : Int) (hk : (sk, dk, yk) ∈ dateFields)
    (hp : parseInt (getProp body.props sk) = some t) (hr : (t * 1000).natAbs ≤ maxTime) :
    (getProp (updateArgsOf tza doc body).props dk
        = obj [("day", num (DateFromTime (LocalTime tza (t * 1000)))),
               ("month", num (MonthFromTime (LocalTime tza (t * 1000))))] ∧
      getProp (updateArgsOf tza doc body).props yk
        = num (YearFromTime (LocalTime tza (t * 1000)) - 1900)) ∧
    (DateFromTime (LocalTime utc (1609459200 * 1000)) = 1 ∧
      MonthFromTime (LocalTime utc (1609459200 * 1000)) = 0 ∧
      YearFromTime (LocalTime utc (1609459200 * 1000)) - 1900 = 121) := by
  refine ⟨?_, by decide, by decide, by decide⟩
  obtain ⟨hne, u, _, _, hu⟩ := updateArgsOf_getProp_date tza doc body sk dk yk hk
  have hs : getProp body.props sk ≠ undefined := by
    intro h
    rw [h, show parseInt undefined = none from by decide] at hp
    cases hp
  have hc := copyDate_supplied tza doc body sk dk yk u hne hs
  have hd : newDate (some t) = some (t * 1000) := by
    unfold newDate
    simp only [not_lt.mpr (show ((t * 1000).natAbs : Int) ≤ maxTime from by exact_mod_cast hr),
      if_false]
  rw [(hu dk (Or.inl rfl)).1, (hu yk (Or.inr rfl)).1, hc.1, hc.2, hp, hd]
  exact ⟨rfl, rfl⟩

/-- C8 at the stored anniversary and the time stamp `"1609459200"` in UTC: the birth date
of the field set is `{day: 1, month: 0}` and its year is 121. -/
theorem timestamp_conversion_witness :
    ("birthdate_timestamp", "birthdate", "birthdate_year") ∈ dateFields ∧
    parseInt (getProp birthdateBody.props "birthdate_timestamp") = some 1609459200 ∧
    ((1609459200 : Int) * 1000).natAbs ≤ maxTime ∧
    getProp (updateArgsOf utc (some storedAnniversary) birthdateBody).props "birthdate"
      = obj [("day", num 1), ("month", num 0)] ∧
    getProp (updateArgsOf utc (some storedAnniversary) birthdateBody).props "birthdate_year"
      = num 121 :=
  ⟨by decide, by decide, by decide,
    (timestamp_conversion utc (some storedAnniversary) birthdateBody "birthdate_timestamp"
      "birthdate" "birthdate_year" 1609459200 (by decide) (by decide) (by decide)).1⟩

/-! ## The merge of campaigns -/

theorem updateMatch_getProp_other (p c : JSObj) (k : String)
    (h1 : k ≠ "signup") (h2 : k ≠ "reportback") :
    getProp (updateMatch p c) k = getProp c k ∧ hasProp (updateMatch p c) k = hasProp c k := by
  unfold updateMatch
  simp only
  split <;> split <;>
    simp [getProp_setProp_ne _ _ _ _ (Ne.symm h1), getProp_setProp_ne _ _ _ _ (Ne.symm h2),
      hasProp_setProp, Ne.symm h1, Ne.symm h2]

theorem updateMatch_nid (p c : JSObj) : getProp (updateMatch p c) "nid" = getProp c "nid" :=
  (updateMatch_getProp_other p c "nid" (by decide) (by decide)).1

theorem updateMatch_signup (p c : JSObj) :
    getProp (updateMatch p c) "signup"
      = if getProp p "signup" ≠ undefined then getProp p "signup" else getProp c "signup" := by
  unfold updateMatch
  simp only
  split <;> split <;>
    simp [getProp_setProp_ne _ _ _ _ (show "reportback" ≠ "signup" by decide),
      getProp_setProp_same]

theorem updateMatch_reportback (p c : JSObj) :
    getProp (updateMatch p c) "reportback"
      = if getProp p "reportback" ≠ undefined then getProp p "reportback"
        else getProp c "reportback" := by
  unfold updateMatch
  simp only
  split <;> split <;>
    first
    | rfl
    | simp [getProp_setProp_ne _ _ _ _ (show "signup" ≠ "reportback" by decide),
        getProp_setProp_same]

theorem nidMatches_congr (p c c' : JSObj) (h : getProp c "nid" = getProp c' "nid") :
    nidMatches p c = nidMatches p c' := by
  unfold nidMatches
  rw [h]

theorem nidMatches_iff (p c : JSObj) :
    nidMatches p c = true ↔ ∃ n : Int, parseInt (getProp p "nid") = some n ∧
      getProp c "nid" = num n := by
  unfold nidMatches parsedStrictEq
  split
  · rename_i n m h1 h2
    simp only [decide_eq_true_eq, h1, h2, Option.some.injEq, num.injEq]
    constructor
    · rintro rfl; exact ⟨n, rfl, rfl⟩
    · rintro ⟨k, rfl, rfl⟩; rfl
  · rename_i h
    simp only [Bool.false_eq_true, false_iff, not_exists, not_and]
    intro n h1 h2
    exact h n n h1 h2

theorem matchLoop_fst (p : JSObj) (W : List JSObj) :
    (matchLoop p W).1 = W.any (nidMatches p) := by
  induction W with
  | nil => rfl
  | cons c W ih =>
    unfold matchLoop
    by_cases h : nidMatches p c = true
    · simp [h]
    · simp [h, ih]

theorem mergeStep_nil (p : JSObj) : mergeStep [] p = [p] := rfl

theorem mergeStep_cons_of_match (p c : JSObj) (W : List JSObj) (h : nidMatches p c = true) :
    mergeStep (c :: W) p = updateMatch p c :: W := by
  simp [mergeStep, matchLoop, h]

theorem mergeStep_cons_of_not_match (p c : JSObj) (W : List JSObj)
    (h : nidMatches p c = false) : mergeStep (c :: W) p = c :: mergeStep W p := by
  unfold mergeStep
  simp only [matchLoop, h, Bool.false_eq_true, if_false]
  split <;> rfl

/-- Without a match the request entry is put, as it is, at the end of the array. -/
theorem mergeStep_of_no_match (p : JSObj) (W : List JSObj)
    (h : ∀ c ∈ W, nidMatches p c = false) : mergeStep W p = W ++ [p] := by
  induction W with
  | nil => rfl
  | cons c W ih =>
    rw [mergeStep_cons_of_not_match p c W (h c (by simp)),
      ih (fun c hc => h c (by simp [hc]))]
    rfl

theorem mergeCampaigns_nil_right (W : List JSObj) : mergeCampaigns W [] = W := rfl

theorem mergeCampaigns_cons_right (W : List JSObj) (p : JSObj) (ps : List JSObj) :
    mergeCampaigns W (p :: ps) = mergeCampaigns (mergeStep W p) ps := rfl

theorem applyUpdates_nid (c : JSObj) (ps : List JSObj) :
    getProp (applyUpdates c ps) "nid" = getProp c "nid" := by
  induction ps generalizing c with
  | nil => rfl
  | cons p ps ih =>
    show getProp (applyUpdates (updateMatch p c) ps) "nid" = _
    rw [ih, updateMatch_nid]

/-- The head of the array takes the updates of the request entries that match it, and
the other request entries are merged into the rest of the array. -/
theorem mergeCampaigns_cons_left (c : JSObj) (W ps : List JSObj) :
    mergeCampaigns (c :: W) ps
      = applyUpdates c (ps.filter (fun p => nidMatches p c))
        :: mergeCampaigns W (ps.filter (fun p => !nidMatches p c)) := by
  induction ps generalizing c W with
  | nil => rfl
  | cons p ps ih =>
    rw [mergeCampaigns_cons_right]
    by_cases h : nidMatches p c = true
    · rw [mergeStep_cons_of_match p c W h, ih]
      have hc : ∀ q, nidMatches q (updateMatch p c) = nidMatches q c :=
        fun q => nidMatches_congr q _ _ (updateMatch_nid p c)
      simp only [hc, List.filter_cons, h, if_true, Bool.not_true, Bool.false_eq_true, if_false]
      rfl
    · simp only [Bool.not_eq_true] at h
      rw [mergeStep_cons_of_not_match p c W h, ih]
      simp only [List.filter_cons, h, Bool.false_eq_true, if_false, Bool.not_false, if_true]
      rfl

theorem EntryUpdated.refl (ps : List JSObj) (e : JSObj) : EntryUpdated ps e e :=
  ⟨rfl, fun _ _ _ => ⟨rfl, rfl⟩, fun h => absurd rfl h, fun h => absurd rfl h⟩

theorem EntryUpdated.mono {ps qs : List JSObj} {e r : JSObj} (h : ∀ p ∈ ps, p ∈ qs)
    (hu : EntryUpdated ps e r) : EntryUpdated qs e r := by
  obtain ⟨h1, h2, h3, h4⟩ := hu
  refine ⟨h1, h2, fun hne => ?_, fun hne => ?_⟩
  · obtain ⟨p, hp, hr⟩ := h3 hne
    exact ⟨p, h p hp, hr⟩
  · obtain ⟨p, hp, hr⟩ := h4 hne
    exact ⟨p, h p hp, hr⟩

theorem EntryUpdated.step {ps : List JSObj} {e r : JSObj} (p : JSObj)
    (hu : EntryUpdated ps e r) (hm : nidMatches p e = true) :
    EntryUpdated (ps ++ [p]) e (updateMatch p r) := by
  obtain ⟨h1, h2, h3, h4⟩ := hu
  refine ⟨by rw [updateMatch_nid, h1], fun k hk1 hk2 => ?_, fun hne => ?_, fun hne => ?_⟩
  · have := updateMatch_getProp_other p r k hk1 hk2
    rw [this.1, this.2]
    exact h2 k hk1 hk2
  · rw [updateMatch_signup] at hne ⊢
    by_cases hs : getProp p "signup" ≠ undefined
    · rw [if_pos hs]
      exact ⟨p, by simp, hm, hs, rfl⟩
    · rw [if_neg hs] at hne ⊢
      obtain ⟨q, hq, hr⟩ := h3 hne
      exact ⟨q, by simp [hq], hr⟩
  · rw [updateMatch_reportback] at hne ⊢
    by_cases hs : getProp p "reportback" ≠ undefined
    · rw [if_pos hs]
      exact ⟨p, by simp, hm, hs, rfl⟩
    · rw [if_neg hs] at hne ⊢
      obtain ⟨q, hq, hr⟩ := h4 hne
      exact ⟨q, by simp [hq], hr⟩

theorem EntryUpdated.applyUpdates_aux (qs : List JSObj) :
    ∀ (ps : List JSObj) (e r : JSObj), EntryUpdated ps e r →
      (∀ q ∈ qs, nidMatches q e = true) → EntryUpdated (ps ++ qs) e (applyUpdates r qs) := by
  induction qs with
  | nil =>
    intro ps e r hu _
    simpa [applyUpdates] using hu
  | cons q qs ih =>
    intro ps e r hu hm
    have h1 := EntryUpdated.step q hu (hm q (by simp))
    have h2 := ih (ps ++ [q]) e (updateMatch q r) h1 (fun x hx => hm x (by simp [hx]))
    simpa [applyUpdates] using h2

theorem EntryUpdated.applyUpdates (e : JSObj) (qs : List JSObj)
    (hm : ∀ q ∈ qs, nidMatches q e = true) : EntryUpdated qs e (applyUpdates e qs) := by
  simpa using EntryUpdated.applyUpdates_aux qs [] e e (EntryUpdated.refl [] e) hm

/-- The result of the merge: the stored entries, each with the updates of the request
entries that match it, followed by the merge into the empty array of the request entries
that match no stored entry. -/
theorem mergeCampaigns_structure (es ps : List JSObj) :
    ∃ updated, mergeCampaigns es ps
        = updated ++ mergeCampaigns [] (ps.filter (fun p => !es.any (nidMatches p))) ∧
      List.Forall₂ (EntryUpdated ps) es updated := by
  induction es generalizing ps with
  | nil => exact ⟨[], by simp, List.Forall₂.nil⟩
  | cons c W ih =>
    obtain ⟨upd, h1, h2⟩ := ih (ps.filter (fun p => !nidMatches p c))
    refine ⟨applyUpdates c (ps.filter (fun p => nidMatches p c)) :: upd, ?_, ?_⟩
    · rw [mergeCampaigns_cons_left, h1, List.filter_filter]
      simp only [List.cons_append, List.any_cons, Bool.not_or, Bool.and_comm]
    · refine List.Forall₂.cons ?_ (h2.imp (fun a b hab => hab.mono ?_))
      · refine (EntryUpdated.applyUpdates c _ ?_).mono ?_
        · intro q hq
          exact (List.mem_filter.mp hq).2
        · intro q hq
          exact (List.mem_filter.mp hq).1
      · intro q hq
        exact (List.mem_filter.mp hq).1

theorem copyCampaigns_campaigns (doc : Option Doc) (body u : Doc) :
    (copyCampaigns doc body u).updateArgs.campaigns =
      match body.campaigns with
      | none => u.campaigns
      | some ps =>
        match doc.bind Doc.campaigns with
        | some es => some (mergeCampaigns es ps)
        | none => some ps := by
  unfold copyCampaigns
  cases body.campaigns with
  | none => rfl
  | some ps =>
    cases doc with
    | none => rfl
    | some d =>
      obtain ⟨dprops, dcampaigns⟩ := d
      cases dcampaigns <;> rfl

/-- The campaigns of the field set. -/
theorem updateArgsOf_campaigns (tza : Int → Int) (doc : Option Doc) (body : Doc) :
    (updateArgsOf tza doc body).campaigns =
      match body.campaigns with
      | none => none
      | some ps =>
        match doc.bind Doc.campaigns with
        | some es => some (mergeCampaigns es ps)
        | none => some ps := by
  unfold updateArgsOf postUpdate
  simp only [copyCampaigns_campaigns, copyDate_campaigns, copyField_campaigns]
  rfl

theorem applyUpdates_append (c : JSObj) (l1 l2 : List JSObj) :
    applyUpdates c (l1 ++ l2) = applyUpdates (applyUpdates c l1) l2 := by
  unfold applyUpdates
  rw [List.foldl_append]

theorem applyUpdates_signup_of_undefined (l : List JSObj) :
    ∀ c : JSObj, (∀ q ∈ l, getProp q "signup" = undefined) →
      getProp (applyUpdates c l) "signup" = getProp c "signup" := by
  induction l with
  | nil => intro c _; rfl
  | cons q l ih =>
    intro c h
    show getProp (applyUpdates (updateMatch q c) l) "signup" = _
    rw [ih _ (fun x hx => h x (by simp [hx])), updateMatch_signup, h q (by simp)]
    simp

theorem applyUpdates_reportback_of_undefined (l : List JSObj) :
    ∀ c : JSObj, (∀ q ∈ l, getProp q "reportback" = undefined) →
      getProp (applyUpdates c l) "reportback" = getProp c "reportback" := by
  induction l with
  | nil => intro c _; rfl
  | cons q l ih =>
    intro c h
    show getProp (applyUpdates (updateMatch q c) l) "reportback" = _
    rw [ih _ (fun x hx => h x (by simp [hx])), updateMatch_reportback, h q (by simp)]
    simp

/-- The last request entry that supplies `signup` gives the value that the updates
leave. -/
theorem applyUpdates_signup_last (c p : JSObj) (l1 l2 : List JSObj)
    (hs : getProp p "signup" ≠ undefined) (h2 : ∀ q ∈ l2, getProp q "signup" = undefined) :
    getProp (applyUpdates c (l1 ++ p :: l2)) "signup" = getProp p "signup" := by
  rw [applyUpdates_append]
  show getProp (applyUpdates (updateMatch p (applyUpdates c l1)) l2) "signup" = _
  rw [applyUpdates_signup_of_undefined l2 _ h2, updateMatch_signup, if_pos hs]

/-- The last request entry that supplies `reportback` gives the value that the updates
leave. -/
theorem applyUpdates_reportback_last (c p : JSObj) (l1 l2 : List JSObj)
    (hs : getProp p "reportback" ≠ undefined)
    (h2 : ∀ q ∈ l2, getProp q "reportback" = undefined) :
    getProp (applyUpdates c (l1 ++ p :: l2)) "reportback" = getProp p "reportback" := by
  rw [applyUpdates_append]
  show getProp (applyUpdates (updateMatch p (applyUpdates c l1)) l2) "reportback" = _
  rw [applyUpdates_reportback_of_undefined l2 _ h2, updateMatch_reportback, if_pos hs]

/-- When a request entry of the list supplies `signup`, the updates leave the value that
one of them supplies. -/
theorem applyUpdates_signup_supplied (l : List JSObj) :
    ∀ c : JSObj, (∃ p ∈ l, getProp p "signup" ≠ undefined) →
      ∃ q ∈ l, getProp q "signup" ≠ undefined ∧
        getProp (applyUpdates c l) "signup" = getProp q "signup" := by
  induction l with
  | nil => intro c h; obtain ⟨p, hp, _⟩ := h; cases hp
  | cons x l ih =>
    intro c h
    by_cases hl : ∃ p ∈ l, getProp p "signup" ≠ undefined
    · obtain ⟨q, hq, hs, hv⟩ := ih (updateMatch x c) hl
      exact ⟨q, List.mem_cons_of_mem _ hq, hs, hv⟩
    · have hx : getProp x "signup" ≠ undefined := by
        obtain ⟨p, hp, hs⟩ := h
        rcases List.mem_cons.mp hp with rfl | hp'
        · exact hs
        · exact absurd ⟨p, hp', hs⟩ hl
      refine ⟨x, List.mem_cons_self _ _, hx, ?_⟩
      show getProp (applyUpdates (updateMatch x c) l) "signup" = _
      rw [applyUpdates_signup_of_undefined l _ (fun q hq => by
        by_contra hne
        exact hl ⟨q, hq, hne⟩), updateMatch_signup, if_pos hx]

/-- When a request entry of the list supplies `reportback`, the updates leave the value
that one of them supplies. -/
theorem applyUpdates_reportback_supplied (l : List JSObj) :
    ∀ c : JSObj, (∃ p ∈ l, getProp p "reportback" ≠ undefined) →
      ∃ q ∈ l, getProp q "reportback" ≠ undefined ∧
        getProp (applyUpdates c l) "reportback" = getProp q "reportback" := by
  induction l with
  | nil => intro c h; obtain ⟨p, hp, _⟩ := h; cases hp
  | cons x l ih =>
    intro c h
    by_cases hl : ∃ p ∈ l, getProp p "reportback" ≠ undefined
    · obtain ⟨q, hq, hs, hv⟩ := ih (updateMatch x c) hl
      exact ⟨q, List.mem_cons_of_mem _ hq, hs, hv⟩
    · have hx : getProp x "reportback" ≠ undefined := by
        obtain ⟨p, hp, hs⟩ := h
        rcases List.mem_cons.mp hp with rfl | hp'
        · exact hs
        · exact absurd ⟨p, hp', hs⟩ hl
      refine ⟨x, List.mem_cons_self _ _, hx, ?_⟩
      show getProp (applyUpdates (updateMatch x c) l) "reportback" = _
      rw [applyUpdates_reportback_of_undefined l _ (fun q hq => by
        by_contra hne
        exact hl ⟨q, hq, hne⟩), updateMatch_reportback, if_pos hx]

/-- The result of the merge, entry by entry: the stored entry at index `i` takes, in the
order of the request, the updates of the request entries that pass the test of line 168
against it and against no stored entry before it. -/
theorem mergeCampaigns_updated (es : List JSObj) :
    ∀ ps : List JSObj, ∃ updated, mergeCampaigns es ps
        = updated ++ mergeCampaigns [] (ps.filter (fun p => !es.any (nidMatches p))) ∧
      List.Forall₂ (EntryUpdated ps) es updated ∧
      ∀ (i : Nat) (e : JSObj), es[i]? = some e →
        updated[i]? = some (applyUpdates e
          (ps.filter (fun p => nidMatches p e && !(es.take i).any (nidMatches p)))) := by
  induction es with
  | nil =>
    intro ps
    exact ⟨[], by simp, List.Forall₂.nil, fun i e h => by simp at h⟩
  | cons c W ih =>
    intro ps
    obtain ⟨upd, h1, h2, h3⟩ := ih (ps.filter (fun p => !nidMatches p c))
    refine ⟨applyUpdates c (ps.filter (fun p => nidMatches p c)) :: upd, ?_, ?_, ?_⟩
    · rw [mergeCampaigns_cons_left, h1, List.filter_filter]
      simp only [List.cons_append, List.any_cons, Bool.not_or, Bool.and_comm]
    · refine List.Forall₂.cons ?_ (h2.imp (fun a b hab => hab.mono ?_))
      · refine (EntryUpdated.applyUpdates c _ ?_).mono ?_
        · intro q hq
          exact (List.mem_filter.mp hq).2
        · intro q hq
          exact (List.mem_filter.mp hq).1
      · intro q hq
        exact (List.mem_filter.mp hq).1
    · intro i e he
      cases i with
      | zero =>
        simp only [List.getElem?_cons_zero, Option.some.injEq] at he
        subst he
        simp
      | succ i =>
        simp only [List.getElem?_cons_succ] at he ⊢
        rw [h3 i e he, List.filter_filter]
        simp only [List.take_succ_cons, List.any_cons, Bool.not_or]
        congr 2
        apply List.filter_congr
        intro p _
        cases nidMatches p e <;> cases nidMatches p c <;>
          cases (List.take i W).any (nidMatches p) <;> rfl

/-- C1, campaign merge, matched entry: for a stored document with campaigns `es` and a
body with campaigns `ps`, the campaigns of the field set are a list `updated ++ appended`
in which `updated` has the stored entries position by position, each with its `nid` and
with every property other than `signup` and `reportback` as stored; `signup` (and likewise
`reportback`) differs from the stored one only if a request entry whose `parseInt(nid)`
is strictly equal to the stored `nid` supplies it, and then has that value.  The entry at
index `i` is the stored entry with the writes of lines 169 to 176 for the request entries,
in their order, that pass the test of line 168 against it and against no stored entry
before it (the loop stops at the first match).  So when such a request entry supplies
`signup` (`reportback`), the entry has a value that such a request entry supplies: that of
the last one in the request that supplies it; and an entry against which no request entry
passes the test is as stored. -/
theorem campaign_merge_matched (tza : Int → Int) (d body : Doc) (es ps : List JSObj)
    (hd : d.campaigns = some es) (hb : body.campaigns = some ps) :
    ∃ updated appended,
      (updateArgsOf tza (some d) body).campaigns = some (updated ++ appended) ∧
      List.Forall₂ (EntryUpdated ps) es updated ∧
      (∀ (i : Nat) (e : JSObj), es[i]? = some e →
        updated[i]? = some (applyUpdates e
          (ps.filter (fun p => nidMatches p e && !(es.take i).any (nidMatches p))))) ∧
      (∀ (i : Nat) (e r : JSObj), es[i]? = some e → updated[i]? = some r →
        ∀ (l1 : List JSObj) (p : JSObj) (l2 : List JSObj), ps = l1 ++ p :: l2 →
          nidMatches p e = true → (es.take i).any (nidMatches p) = false →
          (getProp p "signup" ≠ undefined →
            (∀ q ∈ l2, nidMatches q e = true → getProp q "signup" = undefined) →
            getProp r "signup" = getProp p "signup") ∧
          (getProp p "reportback" ≠ undefined →
            (∀ q ∈ l2, nidMatches q e = true → getProp q "reportback" = undefined) →
            getProp r "reportback" = getProp p "reportback")) ∧
      (∀ (i : Nat) (e r : JSObj), es[i]? = some e → updated[i]? = some r →
        ∀ p ∈ ps, nidMatches p e = true → (es.take i).any (nidMatches p) = false →
          (getProp p "signup" ≠ undefined →
            ∃ q ∈ ps, nidMatches q e = true ∧ getProp q "signup" ≠ undefined ∧
              getProp r "signup" = getProp q "signup") ∧
          (getProp p "reportback" ≠ undefined →
            ∃ q ∈ ps, nidMatches q e = true ∧ getProp q "reportback" ≠ undefined ∧
              getProp r "reportback" = getProp q "reportback")) ∧
      (∀ (i : Nat) (e : JSObj), es[i]? = some e → (∀ p ∈ ps, nidMatches p e = false) →
        updated[i]? = some e) := by
  obtain ⟨updated, h1, h2, h3⟩ := mergeCampaigns_updated es ps
  refine ⟨updated, mergeCampaigns [] (ps.filter (fun p => !es.any (nidMatches p))), ?_, h2, h3,
    ?_, ?_, ?_⟩
  · rw [updateArgsOf_campaigns, hb]
    simp only [show (some d).bind Doc.campaigns = some es from hd, h1]
  · intro i e r he hr l1 p l2 hps hm hfirst
    rw [h3 i e he] at hr
    have hr' := Option.some.inj hr
    have hfilter : ps.filter (fun p => nidMatches p e && !(es.take i).any (nidMatches p))
        = l1.filter (fun p => nidMatches p e && !(es.take i).any (nidMatches p))
          ++ p :: l2.filter (fun p => nidMatches p e && !(es.take i).any (nidMatches p)) := by
      rw [hps, List.filter_append, List.filter_cons]
      simp [hm, hfirst]
    rw [hfilter] at hr'
    refine ⟨fun hs hl => ?_, fun hs hl => ?_⟩
    · rw [← hr']
      refine applyUpdates_signup_last e p _ _ hs (fun q hq => ?_)
      have hq' := List.mem_filter.mp hq
      have hq2 := hq'.2
      simp only [Bool.and_eq_true] at hq2
      exact hl q hq'.1 hq2.1
    · rw [← hr']
      refine applyUpdates_reportback_last e p _ _ hs (fun q hq => ?_)
      have hq' := List.mem_filter.mp hq
      have hq2 := hq'.2
      simp only [Bool.and_eq_true] at hq2
      exact hl q hq'.1 hq2.1
  · intro i e r he hr p hp hm hfirst
    rw [h3 i e he] at hr
    have hr' := Option.some.inj hr
    have hmem : p ∈ ps.filter (fun p => nidMatches p e && !(es.take i).any (nidMatches p)) := by
      rw [List.mem_filter]
      exact ⟨hp, by simp [hm, hfirst]⟩
    refine ⟨fun hs => ?_, fun hs => ?_⟩
    · obtain ⟨q, hq, hqs, hv⟩ := applyUpdates_signup_supplied _ e ⟨p, hmem, hs⟩
      have hq' := List.mem_filter.mp hq
      have hq2 := hq'.2
      simp only [Bool.and_eq_true] at hq2
      exact ⟨q, hq'.1, hq2.1, hqs, by rw [← hr', hv]⟩
    · obtain ⟨q, hq, hqs, hv⟩ := applyUpdates_reportback_supplied _ e ⟨p, hmem, hs⟩
      have hq' := List.mem_filter.mp hq
      have hq2 := hq'.2
      simp only [Bool.and_eq_true] at hq2
      exact ⟨q, hq'.1, hq2.1, hqs, by rw [← hr', hv]⟩
  · intro i e he hno
    rw [h3 i e he]
    have : ps.filter (fun p => nidMatches p e && !(es.take i).any (nidMatches p)) = [] := by
      rw [List.filter_eq_nil_iff]
      intro p hp
      simp [hno p hp]
    rw [this]
    rfl

theorem mergeCampaigns_nil_left_cons (q : JSObj) (qs : List JSObj) :
    mergeCampaigns [] (q :: qs)
      = applyUpdates q (qs.filter (fun p => nidMatches p q))
        :: mergeCampaigns [] (qs.filter (fun p => !nidMatches p q)) := by
  rw [mergeCampaigns_cons_right, mergeStep_nil, mergeCampaigns_cons_left]

/-- The merge into the empty array: request entries, in their order, each with the
updates of later request entries that match it. -/
theorem mergeCampaigns_nil_left_structure (n : Nat) :
    ∀ qs : List JSObj, qs.length ≤ n →
      ∃ fresh, fresh.Sublist qs ∧
        List.Forall₂ (EntryUpdated qs) fresh (mergeCampaigns [] qs) := by
  induction n with
  | zero =>
    intro qs h
    have : qs = [] := List.length_eq_zero.mp (by omega)
    subst this
    exact ⟨[], List.Sublist.refl _, List.Forall₂.nil⟩
  | succ n ih =>
    intro qs h
    cases qs with
    | nil => exact ⟨[], List.Sublist.refl _, List.Forall₂.nil⟩
    | cons q rest =>
      have hlen : (rest.filter (fun p => !nidMatches p q)).length ≤ n :=
        le_trans (List.length_filter_le _ _) (by simpa using h)
      obtain ⟨fresh, hs, hf⟩ := ih _ hlen
      refine ⟨q :: fresh, ?_, ?_⟩
      · exact (hs.trans (List.filter_sublist _)).cons₂ q
      · rw [mergeCampaigns_nil_left_cons]
        refine List.Forall₂.cons ?_ (hf.imp (fun a b hab => hab.mono ?_))
        · refine (EntryUpdated.applyUpdates q _ ?_).mono ?_
          · intro x hx
            exact (List.mem_filter.mp hx).2
          · intro x hx
            exact List.mem_cons_of_mem _ (List.mem_filter.mp hx).1
        · intro x hx
          exact List.mem_cons_of_mem _ (List.mem_filter.mp hx).1

/-- When no request entry matches an earlier request entry, the merge into the empty
array is the list of request entries itself. -/
theorem mergeCampaigns_nil_left_of_pairwise (qs : List JSObj)
    (h : qs.Pairwise (fun p q => nidMatches q p = false)) : mergeCampaigns [] qs = qs := by
  induction qs with
  | nil => rfl
  | cons q rest ih =>
    rw [List.pairwise_cons] at h
    have h1 : rest.filter (fun p => nidMatches p q) = [] := by
      rw [List.filter_eq_nil_iff]
      intro x hx
      simp [h.1 x hx]
    have h2 : rest.filter (fun p => !nidMatches p q) = rest := by
      rw [List.filter_eq_self]
      intro x hx
      simp [h.1 x hx]
    rw [mergeCampaigns_nil_left_cons, h1, h2, ih h.2]
    rfl

theorem mergeStep_map_nidOf (W : List JSObj) (p : JSObj) :
    (mergeStep W p).map nidOf
      = W.map nidOf ++ (if W.any (nidMatches p) then [] else [nidOf p]) := by
  induction W with
  | nil => rfl
  | cons c W ih =>
    by_cases h : nidMatches p c = true
    · rw [mergeStep_cons_of_match p c W h]
      simp [h, nidOf, updateMatch_nid]
    · simp only [Bool.not_eq_true] at h
      rw [mergeStep_cons_of_not_match p c W h]
      simp [h, ih]

theorem nidMatches_of_num (p c : JSObj) (n : Int) (hp : getProp p "nid" = num n)
    (hs : parseInt (num n) = some n) : nidMatches p c = true ↔ nidOf c = num n := by
  rw [nidMatches_iff, hp, hs]
  constructor
  · rintro ⟨m, hm, hc⟩
    cases hm
    exact hc
  · intro hc
    exact ⟨n, rfl, hc⟩

/-- The stored ids stay pairwise distinct when every request id is a Number that
`parseInt` reads back as itself. -/
theorem mergeCampaigns_nodup (es ps : List JSObj) (hE : (es.map nidOf).Nodup)
    (hP : ∀ p ∈ ps, ∃ n : Int, getProp p "nid" = num n ∧ parseInt (num n) = some n) :
    ((mergeCampaigns es ps).map nidOf).Nodup := by
  induction ps generalizing es with
  | nil => exact hE
  | cons p ps ih =>
    rw [mergeCampaigns_cons_right]
    refine ih _ ?_ (fun q hq => hP q (by simp [hq]))
    rw [mergeStep_map_nidOf]
    obtain ⟨n, hn, hs⟩ := hP p (by simp)
    split
    · simpa using hE
    · rename_i hany
      rw [List.nodup_append]
      refine ⟨hE, List.nodup_singleton _, ?_⟩
      simp only [List.disjoint_singleton, List.mem_map, not_exists, not_and]
      intro c hc hcn
      apply hany
      rw [List.any_eq_true]
      refine ⟨c, hc, (nidMatches_of_num p c n hn hs).mpr ?_⟩
      rw [hcn]
      exact hn

/-- An entry that a request entry matches has the integer-coerced id of the request
entry, when `parseInt` reads that id back as itself. -/
theorem coercedNid_eq_of_nidMatches (p c : JSObj) (h : nidMatches p c = true)
    (hs : ∀ m : Int, coercedNid p = some m → parseInt (num m) = some m) :
    coercedNid c = coercedNid p := by
  obtain ⟨n, h1, h2⟩ := (nidMatches_iff p c).mp h
  have hn := hs n h1
  unfold coercedNid
  rw [h1, h2, hn]

/-- The integer-coerced ids of the merge are those of the array and of the request,
when `parseInt` reads every id of the request as `NaN` or as a Number that it reads back
as itself. -/
theorem mergeCampaigns_coercedNid (es ps : List JSObj)
    (hS : ∀ p ∈ ps, ∀ m : Int, coercedNid p = some m → parseInt (num m) = some m)
    (x : Option Int) :
    x ∈ (mergeCampaigns es ps).map coercedNid ↔
      x ∈ es.map coercedNid ∨ x ∈ ps.map coercedNid := by
  induction ps generalizing es with
  | nil => simp [mergeCampaigns_nil_right]
  | cons p ps ih =>
    rw [mergeCampaigns_cons_right, ih _ (fun q hq => hS q (by simp [hq]))]
    have hstep : x ∈ (mergeStep es p).map coercedNid ↔
        x ∈ es.map coercedNid ∨ x = coercedNid p := by
      have hm : (mergeStep es p).map coercedNid = ((mergeStep es p).map nidOf).map parseInt := by
        simp [List.map_map, coercedNid, nidOf, Function.comp_def]
      rw [hm, mergeStep_map_nidOf]
      have hm2 : (es.map nidOf).map parseInt = es.map coercedNid := by
        simp [List.map_map, coercedNid, nidOf, Function.comp_def]
      split
      · rename_i hany
        rw [List.append_nil, hm2]
        constructor
        · exact Or.inl
        · rintro (h | h)
          · exact h
          · rw [List.any_eq_true] at hany
            obtain ⟨c, hc, hcm⟩ := hany
            rw [h, ← coercedNid_eq_of_nidMatches p c hcm (hS p (by simp))]
            exact List.mem_map_of_mem _ hc
      · rw [List.map_append, hm2]
        simp [coercedNid, nidOf]
    rw [hstep]
    simp only [List.map_cons, List.mem_cons]
    tauto

/-- With Numbers that `parseInt` reads back as themselves as request ids, the ids of the
merge are those of the array and of the request. -/
theorem mergeCampaigns_nidOf (es ps : List JSObj)
    (hP : ∀ p ∈ ps, ∃ n : Int, getProp p "nid" = num n ∧ parseInt (num n) = some n) (v : JSVal) :
    v ∈ (mergeCampaigns es ps).map nidOf ↔ v ∈ es.map nidOf ∨ v ∈ ps.map nidOf := by
  induction ps generalizing es with
  | nil => simp [mergeCampaigns_nil_right]
  | cons p ps ih =>
    rw [mergeCampaigns_cons_right, ih _ (fun q hq => hP q (by simp [hq])), mergeStep_map_nidOf]
    obtain ⟨n, hn, hs⟩ := hP p (by simp)
    split
    · rename_i hany
      rw [List.any_eq_true] at hany
      obtain ⟨c, hc, hcm⟩ := hany
      have hcn : nidOf c = nidOf p := by
        rw [(nidMatches_of_num p c n hn hs).mp hcm]
        exact hn.symm
      have hmem : nidOf p ∈ es.map nidOf := hcn ▸ List.mem_map_of_mem _ hc
      simp only [List.append_nil, List.map_cons, List.mem_cons]
      constructor
      · rintro (h | h)
        · exact Or.inl h
        · exact Or.inr (Or.inr h)
      · rintro (h | h | h)
        · exact Or.inl h
        · exact Or.inl (h ▸ hmem)
        · exact Or.inr h
    · simp only [List.mem_append, List.mem_singleton, List.map_cons, List.mem_cons]
      tauto

/-- Ids beyond the safe range.  `parseInt(1e21)` is `1`: two request entries with the id
`1e21` are both appended to an empty stored array, and a request entry with the id `1e21`
updates the stored entry with the id `1`.  `parseInt` reads the text `"9007199254740993"`
as `2^53`: it updates the stored entry with that id.  And the stored id `1e21`, matched
by a text of 22 digits, has the integer-coerced id 1, which is not that of the request
entry. -/
theorem mergeCampaigns_beyond_safe_samples :
    mergeCampaigns []
        [[("nid", num 1000000000000000000000), ("signup", .bool true)],
         [("nid", num 1000000000000000000000), ("reportback", .bool true)]]
      = [[("nid", num 1000000000000000000000), ("signup", .bool true)],
         [("nid", num 1000000000000000000000), ("reportback", .bool true)]] ∧
    mergeCampaigns [[("nid", num 1), ("signup", .bool false)]]
        [[("nid", num 1000000000000000000000), ("signup", .bool true)]]
      = [[("nid", num 1), ("signup", .bool true)]] ∧
    mergeCampaigns [[("nid", num 9007199254740992), ("signup", .bool false)]]
        [[("nid", str "9007199254740993"), ("signup", .bool true)]]
      = [[("nid", num 9007199254740992), ("signup", .bool true)]] ∧
    mergeCampaigns [[("nid", num 1000000000000000000000), ("signup", .bool false)]]
        [[("nid", str "1000000000000000000000"), ("signup", .bool true)]]
      = [[("nid", num 1000000000000000000000), ("signup", .bool true)]] ∧
    coercedNid [("nid", num 1000000000000000000000), ("signup", .bool true)] = some 1 ∧
    coercedNid [("nid", str "1000000000000000000000"), ("signup", .bool true)]
      = some 1000000000000000000000 := by
  decide

/-- C1 at the stored entry `{nid: 5, extra: "x", signup: false}` and the request entry
`{nid: "5", signup: true}`: the request entry passes the test of line 168 against the
stored entry and supplies `signup`, and the entry at index 0 of the campaigns of the field
set has `signup: true`, with `nid` and `extra` as stored. -/
theorem campaign_merge_matched_witness :
    storedCampaignFive.campaigns
      = some [[("nid", num 5), ("extra", str "x"), ("signup", .bool false)]] ∧
    signupFiveBody.campaigns = some [[("nid", str "5"), ("signup", .bool true)]] ∧
    nidMatches [("nid", str "5"), ("signup", .bool true)]
      [("nid", num 5), ("extra", str "x"), ("signup", .bool false)] = true ∧
    (updateArgsOf utc (some storedCampaignFive) signupFiveBody).campaigns
      = some [[("nid", num 5), ("extra", str "x"), ("signup", .bool true)]] ∧
    ∃ updated appended,
      (updateArgsOf utc (some storedCampaignFive) signupFiveBody).campaigns
        = some (updated ++ appended) ∧
      List.Forall₂ (EntryUpdated [[("nid", str "5"), ("signup", .bool true)]])
        [[("nid", num 5), ("extra", str "x"), ("signup", .bool false)]] updated ∧
      updated[0]? = some [("nid", num 5), ("extra", str "x"), ("signup", .bool true)] ∧
      ∀ r, updated[0]? = some r → getProp r "signup" = .bool true := by
  refine ⟨rfl, rfl, by decide, by decide, ?_⟩
  obtain ⟨updated, appended, h1, h2, h3, h4, _, _⟩ :=
    campaign_merge_matched utc storedCampaignFive signupFiveBody
      [[("nid", num 5), ("extra", str "x"), ("signup", .bool false)]]
      [[("nid", str "5"), ("signup", .bool true)]] rfl rfl
  refine ⟨updated, appended, h1, h2, (h3 0 _ rfl).trans (by decide), fun r hr => ?_⟩
  exact ((h4 0 _ r rfl hr [] [("nid", str "5"), ("signup", .bool true)] [] rfl
    (by decide) (by decide)).1 (by decide) (fun q hq => by cases hq))

/-- C2 as stated fails when a later request entry matches an appended one: the entry
`{nid: 2, signup: true}` matches no entry of the working result `[{nid: 1, signup: true}]`,
yet the result is `[{nid: 1, signup: true}, {nid: 2, signup: false}]`, which does not hold
that entry as it was sent. -/
theorem campaign_merge_unmatched_counterexample :
    (∀ c ∈ [[("nid", num 1), ("signup", .bool true)]],
      nidMatches [("nid", num 2), ("signup", .bool true)] c = false) ∧
    (updateArgsOf utc (some storedCampaignOne) repeatedTwoBody).campaigns
      = some [[("nid", num 1), ("signup", .bool true)], [("nid", num 2), ("signup", .bool false)]] ∧
    (updateArgsOf utc (some storedCampaignOne) repeatedTwoBody).campaigns
      ≠ some ([[("nid", num 1), ("signup", .bool true)]]
          ++ [[("nid", num 2), ("signup", .bool true)]]) ∧
    [("nid", num 2), ("signup", .bool true)]
      ∉ mergeCampaigns [[("nid", num 1), ("signup", .bool true)]]
          [[("nid", num 2), ("signup", .bool true)], [("nid", num 2), ("signup", .bool false)]] := by
  decide

/-- C2 as amended: a request entry that matches no entry of the working result is put at
its end as it is, and later request entries that match it can still update its `signup`
and `reportback`.  The campaigns of the field set are the updated stored entries in their
order, followed by entries `appended` that stand, in the order of the request, for request
entries `fresh` that match no stored entry, each equal to its request entry but for such
updates; when no request entry matches an earlier request entry, `appended` is exactly
the list of the request entries that match no stored entry.  The stored
`[{nid: 1, signup: true, reportback: false}]` and the request
`[{nid: 1, reportback: true}, {nid: 2, signup: true}]` give
`[{nid: 1, signup: true, reportback: true}, {nid: 2, signup: true}]`. -/
theorem campaign_merge_unmatched (tza : Int → Int) (d body : Doc) (es ps : List JSObj)
    (hd : d.campaigns = some es) (hb : body.campaigns = some ps) :
    (∀ (W : List JSObj) (p : JSObj), (∀ c ∈ W, nidMatches p c = false) →
      mergeStep W p = W ++ [p]) ∧
    (∃ updated fresh appended,
      (updateArgsOf tza (some d) body).campaigns = some (updated ++ appended) ∧
      List.Forall₂ (EntryUpdated ps) es updated ∧
      fresh.Sublist (ps.filter (fun p => !es.any (nidMatches p))) ∧
      List.Forall₂ (EntryUpdated ps) fresh appended) ∧
    (ps.Pairwise (fun p q => nidMatches q p = false) →
      ∃ updated,
        (updateArgsOf tza (some d) body).campaigns
          = some (updated ++ ps.filter (fun p => !es.any (nidMatches p))) ∧
        List.Forall₂ (EntryUpdated ps) es updated) ∧
    mergeCampaigns [[("nid", num 1), ("signup", .bool true), ("reportback", .bool false)]]
        [[("nid", num 1), ("reportback", .bool true)], [("nid", num 2), ("signup", .bool true)]]
      = [[("nid", num 1), ("signup", .bool true), ("reportback", .bool true)],
         [("nid", num 2), ("signup", .bool true)]] := by
  have hc : (updateArgsOf tza (some d) body).campaigns = some (mergeCampaigns es ps) := by
    rw [updateArgsOf_campaigns, hb]
    simp only [show (some d).bind Doc.campaigns = some es from hd]
  obtain ⟨updated, h1, h2⟩ := mergeCampaigns_structure es ps
  refine ⟨fun W p h => mergeStep_of_no_match p W h, ?_, ?_, by decide⟩
  · obtain ⟨fresh, hs, hf⟩ := mergeCampaigns_nil_left_structure _
      (ps.filter (fun p => !es.any (nidMatches p))) (le_refl _)
    refine ⟨updated, fresh, _, by rw [hc, h1], h2, hs, hf.imp (fun a b hab => hab.mono ?_)⟩
    intro x hx
    exact (List.mem_filter.mp hx).1
  · intro hp
    refine ⟨updated, ?_, h2⟩
    rw [hc, h1, mergeCampaigns_nil_left_of_pairwise _ (hp.sublist (List.filter_sublist _))]

/-- C2 at the example of the specification: the second request entry matches no stored
entry and no request entry matches an earlier one, so it is appended as sent. -/
theorem campaign_merge_unmatched_witness :
    storedExample.campaigns
      = some [[("nid", num 1), ("signup", .bool true), ("reportback", .bool false)]] ∧
    exampleBody.campaigns
      = some [[("nid", num 1), ("reportback", .bool true)],
              [("nid", num 2), ("signup", .bool true)]] ∧
    List.Pairwise (fun p q => nidMatches q p = false)
      [[("nid", num 1), ("reportback", .bool true)], [("nid", num 2), ("signup", .bool true)]] ∧
    ∃ updated,
      (updateArgsOf utc (some storedExample) exampleBody).campaigns
        = some (updated ++ [[("nid", num 2), ("signup", .bool true)]]) ∧
      List.Forall₂
        (EntryUpdated [[("nid", num 1), ("reportback", .bool true)],
          [("nid", num 2), ("signup", .bool true)]])
        [[("nid", num 1), ("signup", .bool true), ("reportback", .bool false)]] updated :=
  ⟨rfl, rfl, by decide,
    (campaign_merge_unmatched utc storedExample exampleBody _ _ rfl rfl).2.2.1 (by decide)⟩

/-- C3 as stated fails: with the stored `[{nid: 1, signup: true}]` and the request
`[{nid: "2", signup: true}, {nid: "2", reportback: true}]` both request entries are
appended, so two entries of the result have the id `"2"`; and two stored entries with
the id `1` both stay in the result. -/
theorem campaign_ids_unique_counterexample :
    (updateArgsOf utc (some storedCampaignOne) textIdBody).campaigns
      = some [[("nid", num 1), ("signup", .bool true)], [("nid", str "2"), ("signup", .bool true)],
          [("nid", str "2"), ("reportback", .bool true)]] ∧
    ¬ (List.map nidOf (mergeCampaigns [[("nid", num 1), ("signup", .bool true)]]
        [[("nid", str "2"), ("signup", .bool true)],
         [("nid", str "2"), ("reportback", .bool true)]])).Nodup ∧
    ¬ (List.map coercedNid (mergeCampaigns [[("nid", num 1), ("signup", .bool true)]]
        [[("nid", str "2"), ("signup", .bool true)],
         [("nid", str "2"), ("reportback", .bool true)]])).Nodup ∧
    ¬ (List.map nidOf (mergeCampaigns
        [[("nid", num 1), ("signup", .bool true)], [("nid", num 1), ("signup", .bool false)]]
        [[("nid", num 1), ("reportback", .bool true)]])).Nodup := by
  decide

/-- C3 as amended: when the stored campaigns have pairwise distinct ids and every id of
the request is a Number `n` that `parseInt` reads back as itself (`parseInt(n) === n`, as
for every safe integer, `parseInt_num`; not for `1e21`, which it reads as 1), no two
entries of the campaigns of the field set have the same id. -/
theorem campaign_ids_unique (tza : Int → Int) (d body : Doc) (es ps : List JSObj)
    (hd : d.campaigns = some es) (hb : body.campaigns = some ps)
    (hE : (es.map nidOf).Nodup)
    (hP : ∀ p ∈ ps, ∃ n : Int, getProp p "nid" = num n ∧ parseInt (num n) = some n) :
    ∃ rs, (updateArgsOf tza (some d) body).campaigns = some rs ∧ (rs.map nidOf).Nodup := by
  refine ⟨mergeCampaigns es ps, ?_, mergeCampaigns_nodup es ps hE hP⟩
  rw [updateArgsOf_campaigns, hb]
  simp only [show (some d).bind Doc.campaigns = some es from hd]

/-- C3 at the stored `[{nid: 1, signup: true}]` and the request
`[{nid: 2, signup: true}, {nid: 2, signup: false}]`: the result has the ids 1 and 2, once
each. -/
theorem campaign_ids_unique_witness :
    storedCampaignOne.campaigns = some [[("nid", num 1), ("signup", .bool true)]] ∧
    repeatedTwoBody.campaigns
      = some [[("nid", num 2), ("signup", .bool true)],
              [("nid", num 2), ("signup", .bool false)]] ∧
    (List.map nidOf [[("nid", num 1), ("signup", .bool true)]]).Nodup ∧
    (∀ p ∈ [[("nid", num 2), ("signup", .bool true)], [("nid", num 2), ("signup", .bool false)]],
      ∃ n : Int, getProp p "nid" = num n ∧ parseInt (num n) = some n) ∧
    (updateArgsOf utc (some storedCampaignOne) repeatedTwoBody).campaigns
      = some [[("nid", num 1), ("signup", .bool true)], [("nid", num 2), ("signup", .bool false)]] ∧
    ∃ rs, (updateArgsOf utc (some storedCampaignOne) repeatedTwoBody).campaigns = some rs ∧
      (rs.map nidOf).Nodup :=
  have hP : ∀ p ∈ [[("nid", num 2), ("signup", .bool true)],
      [("nid", num 2), ("signup", .bool false)]],
      ∃ n : Int, getProp p "nid" = num n ∧ parseInt (num n) = some n := by
    intro p hp
    simp only [List.mem_cons, List.mem_singleton, List.not_mem_nil, or_false] at hp
    rcases hp with rfl | rfl <;> exact ⟨2, rfl, by decide⟩
  ⟨rfl, rfl, by decide, hP, by decide,
    campaign_ids_unique utc storedCampaignOne repeatedTwoBody _ _ rfl rfl (by decide) hP⟩

/-- C4 as stated fails: with the stored `[{nid: 1, signup: true}]` and the request
`[{nid: "2", signup: true}]` the ids of the result are `1` and the text `"2"`; the integer
`2` of the union is not among them. -/
theorem campaign_ids_union_counterexample :
    (updateArgsOf utc (some storedCampaignOne) textIdOnceBody).campaigns
      = some [[("nid", num 1), ("signup", .bool true)], [("nid", str "2"), ("signup", .bool true)]] ∧
    ¬ ∀ v : JSVal,
      v ∈ List.map nidOf (mergeCampaigns [[("nid", num 1), ("signup", .bool true)]]
          [[("nid", str "2"), ("signup", .bool true)]]) ↔
        (v ∈ List.map nidOf [[("nid", num 1), ("signup", .bool true)]] ∨
          ∃ n : Int, some n ∈ List.map coercedNid [[("nid", str "2"), ("signup", .bool true)]] ∧
            v = num n) := by
  refine ⟨by decide, fun h => ?_⟩
  have h2 := (h (num 2)).mpr (Or.inr ⟨2, by decide, rfl⟩)
  revert h2
  decide

/-- C4 as amended: when `parseInt` reads every id of the request as `NaN` or as a Number
that it reads back as itself (as it does every safe integer, `parseInt_num`), the
integer-coerced ids (`parseInt(nid)`) of the campaigns of the field set are those of the
stored campaigns together with those of the request; when every id of the request is a
Number that `parseInt` reads back as itself, the same holds for the ids as they are. -/
theorem campaign_ids_union (tza : Int → Int) (d body : Doc) (es ps : List JSObj)
    (hd : d.campaigns = some es) (hb : body.campaigns = some ps) :
    ∃ rs, (updateArgsOf tza (some d) body).campaigns = some rs ∧
      ((∀ p ∈ ps, ∀ m : Int, coercedNid p = some m → parseInt (num m) = some m) →
        ∀ x : Option Int,
          x ∈ rs.map coercedNid ↔ x ∈ es.map coercedNid ∨ x ∈ ps.map coercedNid) ∧
      ((∀ p ∈ ps, ∃ n : Int, getProp p "nid" = num n ∧ parseInt (num n) = some n) →
        ∀ v : JSVal, v ∈ rs.map nidOf ↔ v ∈ es.map nidOf ∨ v ∈ ps.map nidOf) := by
  refine ⟨mergeCampaigns es ps, ?_, fun hS => mergeCampaigns_coercedNid es ps hS,
    fun hP => mergeCampaigns_nidOf es ps hP⟩
  rw [updateArgsOf_campaigns, hb]
  simp only [show (some d).bind Doc.campaigns = some es from hd]

/-- C4 at the stored `[{nid: 1, signup: true}]` and the request `[{nid: "2", signup: true}]`,
whose id `parseInt` reads as 2: the coerced ids of the result are 1 and 2. -/
theorem campaign_ids_union_witness :
    storedCampaignOne.campaigns = some [[("nid", num 1), ("signup", .bool true)]] ∧
    textIdOnceBody.campaigns = some [[("nid", str "2"), ("signup", .bool true)]] ∧
    (∀ p ∈ [[("nid", str "2"), ("signup", .bool true)]],
      ∀ m : Int, coercedNid p = some m → parseInt (num m) = some m) ∧
    ∃ rs, (updateArgsOf utc (some storedCampaignOne) textIdOnceBody).campaigns = some rs ∧
      List.map coercedNid rs = [some 1, some 2] ∧
      ∀ x : Option Int, x ∈ rs.map coercedNid ↔
        x ∈ List.map coercedNid [[("nid", num 1), ("signup", .bool true)]] ∨
        x ∈ List.map coercedNid [[("nid", str "2"), ("signup", .bool true)]] :=
  have hS : ∀ p ∈ [[("nid", str "2"), ("signup", .bool true)]],
      ∀ m : Int, coercedNid p = some m → parseInt (num m) = some m := by
    intro p hp m hm
    simp only [List.mem_singleton] at hp
    subst hp
    have h2 : coercedNid [("nid", str "2"), ("signup", .bool true)] = some 2 := by decide
    rw [h2] at hm
    cases hm
    decide
  ⟨rfl, rfl, hS,
    (campaign_ids_union utc storedCampaignOne textIdOnceBody _ _ rfl rfl).imp
      (fun rs h => ⟨h.1, by
        have hrs := h.1
        rw [show (updateArgsOf utc (some storedCampaignOne) textIdOnceBody).campaigns
          = some [[("nid", num 1), ("signup", .bool true)],
              [("nid", str "2"), ("signup", .bool true)]] from by decide] at hrs
        rw [← Option.some.inj hrs]
        decide, h.2.1 hS⟩)⟩

/-! ## Writes to an object, and the merge applied twice -/

theorem applyWrites_nil (o : JSObj) : applyWrites o [] = o := rfl

theorem applyWrites_cons (o : JSObj) (w : String × JSVal) (ws : List (String × JSVal)) :
    applyWrites o (w :: ws) = applyWrites (setProp o w.1 w.2) ws := rfl

theorem applyWrites_append (o : JSObj) (ws vs : List (String × JSVal)) :
    applyWrites o (ws ++ vs) = applyWrites (applyWrites o ws) vs := by
  simp [applyWrites, List.foldl_append]

theorem applyWrites_head (k : String) (ws : List (String × JSVal)) :
    ∀ (w : JSVal) (rest : JSObj),
      applyWrites ((k, w) :: rest) ws
        = (k, lastWrite ws k w) :: applyWrites rest (ws.filter (fun x => decide (x.1 ≠ k))) := by
  induction ws with
  | nil => intro w rest; rfl
  | cons x ws ih =>
    intro w rest
    obtain ⟨k', v⟩ := x
    rw [applyWrites_cons]
    by_cases h : k = k'
    · subst h
      simp [setProp, ih, lastWrite]
    · have h' : k' ≠ k := fun e => h e.symm
      simp [setProp, h, h', ih, lastWrite, applyWrites_cons]

theorem lastWrite_lastWrite (ws : List (String × JSVal)) (k : String) :
    ∀ w : JSVal, lastWrite ws k (lastWrite ws k w) = lastWrite ws k w := by
  have key : ∀ (ws : List (String × JSVal)) (w w' : JSVal),
      lastWrite ws k w = lastWrite ws k w' ∨ (lastWrite ws k w = w ∧ lastWrite ws k w' = w') := by
    intro ws
    induction ws with
    | nil => intro w w'; exact Or.inr ⟨rfl, rfl⟩
    | cons x ws ih =>
      intro w w'
      obtain ⟨k', v⟩ := x
      simp only [lastWrite]
      by_cases h : k' = k
      · left
        simp only [h, if_true]
      · simp only [h, if_false]
        exact ih w w'
  intro w
  rcases key ws (lastWrite ws k w) w with h | h
  · exact h
  · exact h.1

/-- Writing the same sequence a second time changes nothing. -/
theorem applyWrites_idem (n : Nat) :
    ∀ (o : JSObj) (ws : List (String × JSVal)), o.length + ws.length ≤ n →
      applyWrites (applyWrites o ws) ws = applyWrites o ws := by
  induction n with
  | zero =>
    intro o ws h
    have : ws = [] := List.length_eq_zero.mp (by omega)
    subst this
    rfl
  | succ n ih =>
    intro o ws h
    cases o with
    | nil =>
      cases ws with
      | nil => rfl
      | cons x ws =>
        obtain ⟨k, v⟩ := x
        have h1 : applyWrites [] ((k, v) :: ws)
            = (k, lastWrite ws k v) :: applyWrites [] (ws.filter (fun x => decide (x.1 ≠ k))) := by
          rw [applyWrites_cons]
          exact applyWrites_head k ws v []
        rw [h1, applyWrites_head]
        have hlen : ([] : JSObj).length + (ws.filter (fun x => decide (x.1 ≠ k))).length ≤ n := by
          have := List.length_filter_le (fun x : String × JSVal => decide (x.1 ≠ k)) ws
          simp only [List.length_cons, List.length_nil] at h ⊢
          omega
        have h2 := ih [] _ hlen
        simp only [lastWrite, if_true, List.filter_cons, ne_eq, not_true_eq_false,
          decide_False, Bool.false_eq_true, if_false]
        simp only [ne_eq] at h2
        rw [h2]
    | cons x rest =>
      obtain ⟨k, w⟩ := x
      rw [applyWrites_head, applyWrites_head, lastWrite_lastWrite]
      have hlen : rest.length + (ws.filter (fun x => decide (x.1 ≠ k))).length ≤ n := by
        have := List.length_filter_le (fun x : String × JSVal => decide (x.1 ≠ k)) ws
        simp only [List.length_cons] at h
        omega
      rw [ih rest _ hlen]

theorem updateMatch_eq_applyWrites (p c : JSObj) :
    updateMatch p c = applyWrites c (writesOf p) := by
  unfold updateMatch writesOf
  split <;> split <;> rfl

theorem applyUpdates_eq_applyWrites (ps : List JSObj) :
    ∀ c : JSObj, applyUpdates c ps = applyWrites c (writesOfAll ps) := by
  induction ps with
  | nil => intro c; rfl
  | cons p ps ih =>
    intro c
    show applyUpdates (updateMatch p c) ps = _
    rw [ih, updateMatch_eq_applyWrites, writesOfAll, applyWrites_append]

/-- An entry takes no change from its own fields. -/
theorem applyWrites_own (q : JSObj) : applyWrites q (writesOf q) = q := by
  unfold writesOf
  split <;> split
  · rename_i h1 h2
    simp only [List.singleton_append, applyWrites_cons, applyWrites_nil]
    rw [setProp_getProp q "signup" (hasProp_of_getProp_ne q _ h1),
      setProp_getProp q "reportback" (hasProp_of_getProp_ne q _ h2)]
  · rename_i h1 h2
    simp only [List.append_nil, applyWrites_cons, applyWrites_nil]
    rw [setProp_getProp q "signup" (hasProp_of_getProp_ne q _ h1)]
  · rename_i h1 h2
    simp only [List.nil_append, applyWrites_cons, applyWrites_nil]
    rw [setProp_getProp q "reportback" (hasProp_of_getProp_ne q _ h2)]
  · rfl

/-- The updates of a list of request entries, applied twice to an entry. -/
theorem applyUpdates_idem (c : JSObj) (ps : List JSObj) :
    applyUpdates (applyUpdates c ps) ps = applyUpdates c ps := by
  rw [applyUpdates_eq_applyWrites, applyUpdates_eq_applyWrites]
  exact applyWrites_idem _ c _ (le_refl _)

/-- An appended entry, with the updates of later entries, takes no change from its own
fields followed by those updates. -/
theorem applyUpdates_own_idem (q : JSObj) (ps : List JSObj) :
    applyUpdates (applyUpdates q ps) (q :: ps) = applyUpdates q ps := by
  rw [applyUpdates_eq_applyWrites, applyUpdates_eq_applyWrites, writesOfAll]
  have h : applyWrites q (writesOfAll ps) = applyWrites q (writesOf q ++ writesOfAll ps) := by
    rw [applyWrites_append, applyWrites_own]
  rw [h]
  exact applyWrites_idem _ q _ (le_refl _)

theorem nidMatches_self (q : JSObj)
    (h : ∃ n : Int, getProp q "nid" = num n ∧ parseInt (num n) = some n) :
    nidMatches q q = true := by
  obtain ⟨n, hn, hs⟩ := h
  exact (nidMatches_of_num q q n hn hs).mpr hn

theorem nidMatches_applyUpdates (p c : JSObj) (ps : List JSObj) :
    nidMatches p (applyUpdates c ps) = nidMatches p c :=
  nidMatches_congr p _ _ (applyUpdates_nid c ps)

/-- Merging the same request a second time changes nothing, when every id of the
request is a Number that `parseInt` reads back as itself. -/
theorem mergeCampaigns_idem (n : Nat) :
    ∀ (es ps : List JSObj), es.length + ps.length ≤ n →
      (∀ p ∈ ps, ∃ n : Int, getProp p "nid" = num n ∧ parseInt (num n) = some n) →
      mergeCampaigns (mergeCampaigns es ps) ps = mergeCampaigns es ps := by
  induction n with
  | zero =>
    intro es ps h _
    have : ps = [] := List.length_eq_zero.mp (by omega)
    subst this
    rfl
  | succ n ih =>
    intro es ps h hP
    cases es with
    | nil =>
      cases ps with
      | nil => rfl
      | cons q qs =>
        have hq := nidMatches_self q (hP q (by simp))
        have hlen : ([] : List JSObj).length + (qs.filter (fun p => !nidMatches p q)).length ≤ n := by
          have := List.length_filter_le (fun p => !nidMatches p q) qs
          simp only [List.length_cons, List.length_nil] at h ⊢
          omega
        have h2 := ih [] _ hlen (fun p hp => hP p (by simp [(List.mem_filter.mp hp).1]))
        rw [mergeCampaigns_nil_left_cons, mergeCampaigns_cons_left]
        simp only [nidMatches_applyUpdates, List.filter_cons, hq, if_true, Bool.not_true,
          Bool.false_eq_true, if_false]
        rw [applyUpdates_own_idem, h2]
    | cons c W =>
      have hlen : W.length + (ps.filter (fun p => !nidMatches p c)).length ≤ n := by
        have := List.length_filter_le (fun p => !nidMatches p c) ps
        simp only [List.length_cons] at h
        omega
      have h2 := ih W _ hlen (fun p hp => hP p (List.mem_filter.mp hp).1)
      rw [mergeCampaigns_cons_left, mergeCampaigns_cons_left]
      simp only [nidMatches_applyUpdates]
      rw [applyUpdates_idem, h2]

/-- Merging a request into itself changes nothing, when its ids are pairwise distinct
Numbers that `parseInt` reads back as themselves. -/
theorem mergeCampaigns_self (ps : List JSObj) (hN : (ps.map nidOf).Nodup)
    (hP : ∀ p ∈ ps, ∃ n : Int, getProp p "nid" = num n ∧ parseInt (num n) = some n) :
    mergeCampaigns ps ps = ps := by
  induction ps with
  | nil => rfl
  | cons q qs ih =>
    have hq := nidMatches_self q (hP q (by simp))
    rw [List.map_cons, List.nodup_cons] at hN
    have hne : ∀ x ∈ qs, nidMatches x q = false := by
      intro x hx
      obtain ⟨m, hm, hms⟩ := hP x (by simp [hx])
      by_contra hc
      simp only [Bool.not_eq_false] at hc
      have h1 := (nidMatches_of_num x q m hm hms).mp hc
      apply hN.1
      rw [h1, ← hm]
      exact List.mem_map_of_mem nidOf hx
    have h1 : qs.filter (fun p => nidMatches p q) = [] := by
      rw [List.filter_eq_nil_iff]
      intro x hx
      simp [hne x hx]
    have h2 : qs.filter (fun p => !nidMatches p q) = qs := by
      rw [List.filter_eq_self]
      intro x hx
      simp [hne x hx]
    rw [mergeCampaigns_cons_left]
    simp only [List.filter_cons, hq, if_true, Bool.not_true, Bool.false_eq_true, if_false, h1, h2]
    rw [ih hN.2 (fun p hp => hP p (by simp [hp]))]
    congr 1
    show updateMatch q q = q
    rw [updateMatch_eq_applyWrites, applyWrites_own]

/-! ## The stored document after the call, and the update applied twice -/

theorem postUpdate_eq (tza : Int → Int) (doc : Option Doc) (body : Doc) :
    postUpdate tza doc body = copyCampaigns doc body (scalarArgs tza doc body) := rfl

theorem scalarArgs_campaigns (tza : Int → Int) (doc : Option Doc) (body : Doc) :
    (scalarArgs tza doc body).campaigns = none := by
  unfold scalarArgs
  simp only [copyDate_campaigns, copyField_campaigns]
  rfl

theorem updateArgsOf_props (tza : Int → Int) (doc : Option Doc) (body : Doc) :
    (updateArgsOf tza doc body).props = (scalarArgs tza doc body).props := by
  unfold updateArgsOf
  rw [postUpdate_eq, copyCampaigns_props]

theorem copyField_eq (doc : Option Doc) (body : Doc) (key : String) (u : Doc) :
    copyField doc body key u =
      if getProp body.props key ≠ undefined then
        { u with props := setProp u.props key (getProp body.props key) }
      else if docRead doc key ≠ undefined then
        { u with props := setProp u.props key (docRead doc key) }
      else u := by
  unfold copyField docRead
  cases doc <;> simp

theorem copyField_congr (doc doc' : Option Doc) (body : Doc) (key : String) (u : Doc)
    (h : getProp body.props key = undefined → docRead doc key = docRead doc' key) :
    copyField doc body key u = copyField doc' body key u := by
  rw [copyField_eq, copyField_eq]
  by_cases hb : getProp body.props key = undefined
  · rw [h hb]
  · simp [hb]

theorem copyDate_eq (tza : Int → Int) (doc : Option Doc) (body : Doc)
    (sk dk yk : String) (u : Doc) :
    copyDate tza doc body sk dk yk u =
      if getProp body.props sk ≠ undefined then
        { u with props := (setProp (setProp u.props dk
            (obj [("day", getDate tza (newDate (parseInt (getProp body.props sk)))),
                  ("month", getMonth tza (newDate (parseInt (getProp body.props sk))))]))
            yk (getYear tza (newDate (parseInt (getProp body.props sk))))) }
      else
        match dateRead doc dk yk with
        | some r => { u with props := setProp (setProp u.props dk r.1) yk r.2 }
        | none => u := by
  unfold copyDate dateRead
  cases doc with
  | none => rfl
  | some d =>
    simp only
    split
    · rfl
    · split <;> rfl

theorem copyDate_congr (tza : Int → Int) (doc doc' : Option Doc) (body : Doc)
    (sk dk yk : String) (u : Doc)
    (h : getProp body.props sk = undefined → dateRead doc dk yk = dateRead doc' dk yk) :
    copyDate tza doc body sk dk yk u = copyDate tza doc' body sk dk yk u := by
  rw [copyDate_eq, copyDate_eq]
  by_cases hb : getProp body.props sk = undefined
  · rw [h hb]
  · simp [hb]

theorem getProp_of_hasProp_false (o : JSObj) (k : String) (h : hasProp o k = false) :
    getProp o k = undefined := by
  by_contra hc
  rw [hasProp_of_getProp_ne o k hc] at h
  cases h

/-- A plain field that the body does not supply reads, in the field set, as it reads in
the stored document. -/
theorem docRead_updateArgsOf (tza : Int → Int) (doc : Option Doc) (body : Doc)
    (key : String) (hk : key ∈ plainFields) (hb : getProp body.props key = undefined) :
    docRead (some (updateArgsOf tza doc body)) key = docRead doc key := by
  obtain ⟨u, _, hu, hg, _⟩ := updateArgsOf_getProp_plain tza doc body key hk
  show getProp (updateArgsOf tza doc body).props key = _
  rw [hg, copyField_eq]
  simp only [hb, ne_eq, not_true_eq_false, if_false]
  by_cases hd : docRead doc key = undefined
  · simp [hd, hu]
  · simp [hd, getProp_setProp_same]

/-- A date that the body does not supply is carried from the field set exactly as it is
carried from the stored document. -/
theorem dateRead_updateArgsOf (tza : Int → Int) (doc : Option Doc) (body : Doc)
    (sk dk yk : String) (hk : (sk, dk, yk) ∈ dateFields)
    (hb : getProp body.props sk = undefined) :
    dateRead (some (updateArgsOf tza doc body)) dk yk = dateRead doc dk yk := by
  obtain ⟨hne, u, hu1, hu2, hg⟩ := updateArgsOf_getProp_date tza doc body sk dk yk hk
  have h1 := (hg dk (Or.inl rfl)).1
  have h2 := (hg yk (Or.inr rfl)).1
  rw [copyDate_eq] at h1 h2
  simp only [hb, ne_eq, not_true_eq_false, if_false] at h1 h2
  show (if typeofObject (getProp (updateArgsOf tza doc body).props dk) &&
        !isObjectEmpty (getProp (updateArgsOf tza doc body).props dk) then
      some (getProp (updateArgsOf tza doc body).props dk,
        getProp (updateArgsOf tza doc body).props yk)
    else none) = _
  rw [h1, h2]
  cases hr : dateRead doc dk yk with
  | none =>
    simp only [getProp_of_hasProp_false _ _ hu1]
    rfl
  | some r =>
    simp only [getProp_setProp_same, getProp_setProp_ne _ _ _ _ hne]
    unfold dateRead at hr
    cases doc with
    | none => cases hr
    | some d =>
      simp only at hr
      split at hr
      · rename_i hc
        cases hr
        simp only [hc, if_true]
      · cases hr

/-- The field set before the campaigns is the same from the field set as from the stored
document. -/
theorem scalarArgs_idem (tza : Int → Int) (doc : Option Doc) (body : Doc) :
    scalarArgs tza (some (updateArgsOf tza doc body)) body = scalarArgs tza doc body := by
  unfold scalarArgs
  rw [copyField_congr _ doc body "subscribed" _
      (docRead_updateArgsOf tza doc body "subscribed" (by decide)),
    copyField_congr _ doc body "drupal_uid" _
      (docRead_updateArgsOf tza doc body "drupal_uid" (by decide)),
    copyField_congr _ doc body "mailchimp_status" _
      (docRead_updateArgsOf tza doc body "mailchimp_status" (by decide)),
    copyField_congr _ doc body "mobile" _
      (docRead_updateArgsOf tza doc body "mobile" (by decide)),
    copyDate_congr tza _ doc body "drupal_register_timestamp" "drupal_register_date"
      "drupal_register_year" _ (dateRead_updateArgsOf tza doc body _ _ _ (by decide)),
    copyDate_congr tza _ doc body "birthdate_timestamp" "birthdate" "birthdate_year" _
      (dateRead_updateArgsOf tza doc body _ _ _ (by decide))]

theorem Doc.ext_fields (a b : Doc) (h1 : a.props = b.props) (h2 : a.campaigns = b.campaigns) :
    a = b := by
  cases a
  cases b
  simp only at h1 h2
  rw [h1, h2]

/-- C10 as stated fails: without a stored document the body
`{campaigns: [{nid: "2", signup: true}]}` gives a field set with that one entry, and the
same body against this field set gives two entries; and without a stored document the
body `{campaigns: [{nid: 2, signup: true}, {nid: 2, signup: false}]}`, whose list is taken
as it is, gives a field set that the second run changes. -/
theorem update_idempotent_counterexample :
    (updateArgsOf utc none textIdOnceBody).campaigns
      = some [[("nid", str "2"), ("signup", .bool true)]] ∧
    (updateArgsOf utc (some (updateArgsOf utc none textIdOnceBody)) textIdOnceBody).campaigns
      = some [[("nid", str "2"), ("signup", .bool true)], [("nid", str "2"), ("signup", .bool true)]] ∧
    updateArgsOf utc (some (updateArgsOf utc none textIdOnceBody)) textIdOnceBody
      ≠ updateArgsOf utc none textIdOnceBody ∧
    updateArgsOf utc (some (updateArgsOf utc none repeatedTwoBody)) repeatedTwoBody
      ≠ updateArgsOf utc none repeatedTwoBody := by
  decide

/-- C10 as amended: the field set computed from the field set `R` of `(E, P)`, taken as
the stored document, and the same `P` equals `R`, when `P` supplies no campaigns, or when
every campaign id of `P` is a Number `n` that `parseInt` reads back as itself
(`parseInt(n) === n`, as for every safe integer, `parseInt_num`) and either `E` has
campaigns or the ids of `P` are pairwise distinct. -/
theorem update_idempotent (tza : Int → Int) (doc : Option Doc) (body : Doc)
    (h : body.campaigns = none ∨
      ∃ ps, body.campaigns = some ps ∧
        (∀ p ∈ ps, ∃ n : Int, getProp p "nid" = num n ∧ parseInt (num n) = some n) ∧
        ((∃ es, doc.bind Doc.campaigns = some es) ∨ (ps.map nidOf).Nodup)) :
    updateArgsOf tza (some (updateArgsOf tza doc body)) body = updateArgsOf tza doc body := by
  apply Doc.ext_fields
  · rw [updateArgsOf_props, updateArgsOf_props, scalarArgs_idem]
  · rw [updateArgsOf_campaigns tza (some (updateArgsOf tza doc body)) body]
    rcases h with hb | ⟨ps, hb, hP, hE⟩
    · rw [updateArgsOf_campaigns, hb]
    · have hR := updateArgsOf_campaigns tza doc body
      rw [hb] at hR
      simp only [hb, Option.some_bind]
      cases hes : doc.bind Doc.campaigns with
      | some es =>
        rw [hes] at hR
        simp only at hR
        rw [hR]
        simp only
        rw [mergeCampaigns_idem _ es ps (le_refl _) hP]
      | none =>
        rw [hes] at hR hE
        simp only at hR
        rw [hR]
        simp only
        rcases hE with ⟨es, he⟩ | hN
        · cases he
        · rw [mergeCampaigns_self ps hN hP]

/-- C10 at the stored `[{nid: 1, signup: true}]` and the request
`[{nid: 2, signup: true}, {nid: 2, signup: false}]`: the first run gives
`[{nid: 1, signup: true}, {nid: 2, signup: false}]`, and so does the second. -/
theorem update_idempotent_witness :
    (repeatedTwoBody.campaigns = none ∨
      ∃ ps, repeatedTwoBody.campaigns = some ps ∧
        (∀ p ∈ ps, ∃ n : Int, getProp p "nid" = num n ∧ parseInt (num n) = some n) ∧
        ((∃ es, (some storedCampaignOne).bind Doc.campaigns = some es) ∨
          (ps.map nidOf).Nodup)) ∧
    (updateArgsOf utc (some storedCampaignOne) repeatedTwoBody).campaigns
      = some [[("nid", num 1), ("signup", .bool true)], [("nid", num 2), ("signup", .bool false)]] ∧
    updateArgsOf utc (some (updateArgsOf utc (some storedCampaignOne) repeatedTwoBody))
        repeatedTwoBody
      = updateArgsOf utc (some storedCampaignOne) repeatedTwoBody :=
  have h : repeatedTwoBody.campaigns = none ∨
      ∃ ps, repeatedTwoBody.campaigns = some ps ∧
        (∀ p ∈ ps, ∃ n : Int, getProp p "nid" = num n ∧ parseInt (num n) = some n) ∧
        ((∃ es, (some storedCampaignOne).bind Doc.campaigns = some es) ∨
          (ps.map nidOf).Nodup) := by
    refine Or.inr ⟨_, rfl, ?_, Or.inl ⟨_, rfl⟩⟩
    intro p hp
    simp only [List.mem_cons, List.mem_singleton, List.not_mem_nil, or_false] at hp
    rcases hp with rfl | rfl <;> exact ⟨2, rfl, by decide⟩
  ⟨h, by decide, update_idempotent utc (some storedCampaignOne) repeatedTwoBody h⟩

/-- C9 as stated fails: with the stored `[{nid: 5, extra: "x", signup: false}]` and the
request `[{nid: "5", signup: true}]` the stored document holds
`[{nid: 5, extra: "x", signup: true}]` after the call. -/
theorem existing_record_unchanged_counterexample :
    (postUpdate utc (some storedCampaignFive) signupFiveBody).doc
      = some ⟨[("email", str "a@b.com")],
          some [[("nid", num 5), ("extra", str "x"), ("signup", .bool true)]]⟩ ∧
    (postUpdate utc (some storedCampaignFive) signupFiveBody).doc ≠ some storedCampaignFive := by
  decide

/-- C9 as amended: the call leaves every property of the stored document other than
`campaigns` as it was; it leaves the whole document as it was when the body supplies no
campaigns or the document has none; and when both have campaigns the array
`doc.campaigns` is the array of the field set and holds the merged list after the call. -/
theorem existing_record_after_update (tza : Int → Int) (doc : Option Doc) (body : Doc) :
    (doc = none → (postUpdate tza doc body).doc = none) ∧
    (∀ d, doc = some d →
      ∃ d', (postUpdate tza doc body).doc = some d' ∧ d'.props = d.props ∧
        ((body.campaigns = none ∨ d.campaigns = none) → d' = d) ∧
        (∀ es ps, d.campaigns = some es → body.campaigns = some ps →
          d'.campaigns = some (mergeCampaigns es ps) ∧
          (postUpdate tza doc body).updateArgs.campaigns = d'.campaigns)) := by
  rw [postUpdate_eq]
  generalize scalarArgs tza doc body = u
  constructor
  · rintro rfl
    unfold copyCampaigns
    cases body.campaigns <;> rfl
  · rintro d rfl
    obtain ⟨dprops, dcampaigns⟩ := d
    unfold copyCampaigns
    cases hb : body.campaigns with
    | none =>
      exact ⟨_, rfl, rfl, fun _ => rfl, fun es ps _ h => by cases h⟩
    | some ps =>
      cases dcampaigns with
      | none =>
        exact ⟨_, rfl, rfl, fun _ => rfl, fun es ps h _ => by cases h⟩
      | some es =>
        refine ⟨_, rfl, rfl, ?_, ?_⟩
        · rintro (h | h) <;> cases h
        · intro es' ps' h1 h2
          cases h1
          cases h2
          exact ⟨rfl, rfl⟩

/-- C9 at the stored `{subscribed: true, mobile: "555"}` and a body without campaigns:
the stored document is as it was. -/
theorem existing_record_after_update_witness :
    ∃ d', (postUpdate utc (some storedSubscriber) unsubscribeBody).doc = some d' ∧
      d'.props = storedSubscriber.props ∧
      ((unsubscribeBody.campaigns = none ∨ storedSubscriber.campaigns = none) →
        d' = storedSubscriber) ∧
      (∀ es ps, storedSubscriber.campaigns = some es → unsubscribeBody.campaigns = some ps →
        d'.campaigns = some (mergeCampaigns es ps) ∧
        (postUpdate utc (some storedSubscriber) unsubscribeBody).updateArgs.campaigns
          = d'.campaigns) :=
  (existing_record_after_update utc (some storedSubscriber) unsubscribeBody).2
    storedSubscriber rfl

/-! ## The merge loop on arrays of any values -/

theorem matchEntryRaw_objects (p c : JSObj) :
    matchEntryRaw (obj p) (obj c)
      = some (if nidMatches p c then some (obj (updateMatch p c)) else none) := by
  unfold matchEntryRaw readProp nidMatches updateMatchRaw updateMatch
  simp only [Option.some_bind]
  split <;> rfl

theorem matchLoopRaw_objects (p : JSObj) (W : List JSObj) :
    matchLoopRaw (obj p) (W.map obj)
      = some ((matchLoop p W).1, (matchLoop p W).2.map obj) := by
  induction W with
  | nil => rfl
  | cons c W ih =>
    simp only [List.map_cons, matchLoopRaw, matchEntryRaw_objects, matchLoop]
    by_cases h : nidMatches p c = true
    · simp [h]
    · simp [h, ih]

theorem mergeStepRaw_objects (p : JSObj) (W : List JSObj) :
    mergeStepRaw (W.map obj) (obj p) = some ((mergeStep W p).map obj) := by
  unfold mergeStepRaw mergeStep
  rw [matchLoopRaw_objects]
  simp only [Option.map_some']
  split <;> simp

/-- On arrays of objects the loop of lines 161 to 188 throws nothing and gives the array
of `mergeCampaigns`. -/
theorem mergeRaw_objects (ps : List JSObj) :
    ∀ W : List JSObj, mergeRaw (W.map obj) (ps.map obj) = some ((mergeCampaigns W ps).map obj) := by
  induction ps with
  | nil => intro W; rfl
  | cons p ps ih =>
    intro W
    simp only [List.map_cons, mergeRaw, mergeStepRaw_objects, Option.some_bind]
    rw [ih]
    rfl

/-- The loop on entries that are no objects: a `null` entry of the request makes the read
of line 168 throw when the array has an entry, whatever the ids, and is put at the end of
an empty array; a text entry has no `nid` and is appended; and a `null` entry of the
array makes the read throw. -/
theorem mergeRaw_samples :
    mergeRaw [obj [("nid", num 1)]] [obj [("nid", str "abc")], null] = none ∧
    mergeRaw [obj [("nid", num 1)]] [null] = none ∧
    mergeRaw [] [null] = some [null] ∧
    mergeRaw [] [null, obj [("nid", num 1)]] = none ∧
    mergeRaw [obj [("nid", num 1)]] [str "abc"] = some [obj [("nid", num 1)], str "abc"] ∧
    mergeRaw [null] [obj [("nid", num 1)]] = none ∧
    mergeRaw [obj [("nid", num 1)]] [obj [("nid", str "abc")]]
      = some [obj [("nid", num 1)], obj [("nid", str "abc")]] := by
  decide

/-! ## Ids that do not parse, and the campaigns of the field set -/

theorem nidMatches_false_of_not_num (p c : JSObj) (h : ∀ n : Int, getProp c "nid" ≠ num n) :
    nidMatches p c = false := by
  by_contra hc
  simp only [Bool.not_eq_false] at hc
  obtain ⟨n, _, hn⟩ := (nidMatches_iff p c).mp hc
  exact h n hn

theorem nidMatches_false_of_nan (p c : JSObj) (h : parseInt (getProp p "nid") = none) :
    nidMatches p c = false := by
  by_contra hc
  simp only [Bool.not_eq_false] at hc
  obtain ⟨n, hn, _⟩ := (nidMatches_iff p c).mp hc
  rw [h] at hn
  cases hn

theorem not_num_of_nan (p : JSObj) (h : parseInt (getProp p "nid") = none) :
    ∀ n : Int, getProp p "nid" ≠ num n := by
  intro n hn
  have hs := parseInt_num_isSome n
  rw [← hn, h] at hs
  cases hs

/-- An entry whose `nid` is no Number is matched by no request entry and stays in the
array as it is. -/
theorem mem_mergeStep_of_not_num (c q : JSObj) (W : List JSObj)
    (h : ∀ n : Int, getProp c "nid" ≠ num n) (hc : c ∈ W) : c ∈ mergeStep W q := by
  induction W with
  | nil => cases hc
  | cons x W ih =>
    by_cases hm : nidMatches q x = true
    · rw [mergeStep_cons_of_match q x W hm]
      rcases List.mem_cons.mp hc with rfl | hmem
      · rw [nidMatches_false_of_not_num q c h] at hm
        cases hm
      · exact List.mem_cons_of_mem _ hmem
    · simp only [Bool.not_eq_true] at hm
      rw [mergeStep_cons_of_not_match q x W hm]
      rcases List.mem_cons.mp hc with rfl | hmem
      · exact List.mem_cons_self _ _
      · exact List.mem_cons_of_mem _ (ih hmem)

theorem mem_mergeCampaigns_of_not_num (c : JSObj) (qs : List JSObj)
    (h : ∀ n : Int, getProp c "nid" ≠ num n) :
    ∀ W : List JSObj, c ∈ W → c ∈ mergeCampaigns W qs := by
  induction qs with
  | nil => intro W hc; exact hc
  | cons q qs ih =>
    intro W hc
    rw [mergeCampaigns_cons_right]
    exact ih _ (mem_mergeStep_of_not_num c q W h hc)

/-- A request entry whose `nid` does not parse is in the merged array as it was sent. -/
theorem mem_mergeCampaigns_of_nan (p : JSObj) (ps : List JSObj)
    (h : parseInt (getProp p "nid") = none) :
    ∀ W : List JSObj, p ∈ ps → p ∈ mergeCampaigns W ps := by
  induction ps with
  | nil => intro W hp; cases hp
  | cons q qs ih =>
    intro W hp
    rw [mergeCampaigns_cons_right]
    rcases List.mem_cons.mp hp with rfl | hmem
    · apply mem_mergeCampaigns_of_not_num p qs (not_num_of_nan p h)
      rw [mergeStep_of_no_match p W (fun c _ => nidMatches_false_of_nan p c h)]
      simp
    · exact ih _ hmem

/-- C11 as stated fails: with the stored `[{nid: 1, signup: true}]` and the request
`[{nid: "abc", signup: true}]`, whose id does not parse, the call produces a field set and
the entry is appended as sent. -/
theorem invalid_campaign_id_counterexample :
    parseInt (str "abc") = none ∧
    (updateArgsOf utc (some storedCampaignOne) badIdBody).campaigns
      = some [[("nid", num 1), ("signup", .bool true)],
              [("nid", str "abc"), ("signup", .bool true)]] ∧
    (updateArgsOf utc none badIdBody).campaigns
      = some [[("nid", str "abc"), ("signup", .bool true)]] := by
  decide

/-- C11 as amended, for campaigns that are arrays of objects: an entry whose `nid` is read
by `parseInt` as `NaN` is not rejected.  The loop of lines 161 to 188 throws nothing on
such arrays (`mergeRaw`, which has the `TypeError` of a read on `null`, gives the array of
`mergeCampaigns`); the entry passes the test of line 168 against no entry, one turn of the
loop puts it at the end of the working array as it is, and it is an entry of the campaigns
of the field set, with its `nid` as sent, whether or not there is a stored document with
campaigns. -/
theorem invalid_campaign_id_appended (tza : Int → Int) (doc : Option Doc) (body : Doc)
    (ps : List JSObj) (p : JSObj) (hb : body.campaigns = some ps) (hp : p ∈ ps)
    (hn : parseInt (getProp p "nid") = none) :
    (∀ c : JSObj, nidMatches p c = false) ∧
    (∀ W : List JSObj, mergeStep W p = W ++ [p]) ∧
    (∀ es : List JSObj,
      mergeRaw (es.map obj) (ps.map obj) = some ((mergeCampaigns es ps).map obj)) ∧
    ∃ rs, (updateArgsOf tza doc body).campaigns = some rs ∧ p ∈ rs := by
  refine ⟨fun c => nidMatches_false_of_nan p c hn,
    fun W => mergeStep_of_no_match p W (fun c _ => nidMatches_false_of_nan p c hn),
    fun es => mergeRaw_objects ps es, ?_⟩
  rw [updateArgsOf_campaigns, hb]
  cases doc.bind Doc.campaigns with
  | none => exact ⟨ps, rfl, hp⟩
  | some es => exact ⟨_, rfl, mem_mergeCampaigns_of_nan p ps hn es hp⟩

/-- C11 at the stored `[{nid: 1, signup: true}]` and the request entry
`{nid: "abc", signup: true}`: the loop throws nothing and the field set has both
entries. -/
theorem invalid_campaign_id_appended_witness :
    badIdBody.campaigns = some [[("nid", str "abc"), ("signup", .bool true)]] ∧
    [("nid", str "abc"), ("signup", .bool true)] ∈ [[("nid", str "abc"), ("signup", .bool true)]] ∧
    parseInt (getProp [("nid", str "abc"), ("signup", .bool true)] "nid") = none ∧
    mergeRaw [obj [("nid", num 1), ("signup", .bool true)]]
        [obj [("nid", str "abc"), ("signup", .bool true)]]
      = some [obj [("nid", num 1), ("signup", .bool true)],
          obj [("nid", str "abc"), ("signup", .bool true)]] ∧
    ∃ rs, (updateArgsOf utc (some storedCampaignOne) badIdBody).campaigns = some rs ∧
      [("nid", str "abc"), ("signup", .bool true)] ∈ rs :=
  ⟨rfl, by decide, by decide, by decide,
    (invalid_campaign_id_appended utc (some storedCampaignOne) badIdBody
      [[("nid", str "abc"), ("signup", .bool true)]] [("nid", str "abc"), ("signup", .bool true)]
      rfl (by decide) (by decide)).2.2.2⟩

/-- C13, campaigns without stored data: when the body supplies campaigns and there is no
stored document, or the stored document has no campaigns, the campaigns of the field set
are the list of the body, entry for entry. -/
theorem campaigns_without_existing (tza : Int → Int) (doc : Option Doc) (body : Doc)
    (ps : List JSObj) (hb : body.campaigns = some ps)
    (hd : doc = none ∨ ∃ d, doc = some d ∧ d.campaigns = none) :
    (updateArgsOf tza doc body).campaigns = some ps := by
  rw [updateArgsOf_campaigns, hb]
  rcases hd with rfl | ⟨d, rfl, hd⟩
  · rfl
  · simp only [show (some d).bind Doc.campaigns = none from hd]

/-- C13 at a body that sends campaign 2 twice, without a stored document and with a stored
document that has no campaigns: both entries are in the field set. -/
theorem campaigns_without_existing_witness :
    repeatedTwoBody.campaigns
      = some [[("nid", num 2), ("signup", .bool true)], [("nid", num 2), ("signup", .bool false)]] ∧
    (updateArgsOf utc none repeatedTwoBody).campaigns
      = some [[("nid", num 2), ("signup", .bool true)], [("nid", num 2), ("signup", .bool false)]] ∧
    (updateArgsOf utc (some storedSubscriber) repeatedTwoBody).campaigns
      = some [[("nid", num 2), ("signup", .bool true)], [("nid", num 2), ("signup", .bool false)]] :=
  ⟨rfl, campaigns_without_existing utc none repeatedTwoBody _ rfl (Or.inl rfl),
    campaigns_without_existing utc (some storedSubscriber) repeatedTwoBody _ rfl
      (Or.inr ⟨storedSubscriber, rfl, rfl⟩)⟩

/-- C14, campaigns not supplied: when the body has no campaigns, the field set has no
campaigns, whatever the stored document. -/
theorem campaigns_not_supplied (tza : Int → Int) (doc : Option Doc) (body : Doc)
    (hb : body.campaigns = none) : (updateArgsOf tza doc body).campaigns = none := by
  rw [updateArgsOf_campaigns, hb]

/-- C14 at a stored document with campaigns and a body that holds only the email. -/
theorem campaigns_not_supplied_witness :
    emailBody.campaigns = none ∧ storedCampaignOne.campaigns ≠ none ∧
    (updateArgsOf utc (some storedCampaignOne) emailBody).campaigns = none :=
  ⟨rfl, by decide, campaigns_not_supplied utc (some storedCampaignOne) emailBody rfl⟩

/-! ## The keys of the field set -/

/-- The value and the presence of a plain field in the field set. -/
theorem updateArgsOf_plain_value (tza : Int → Int) (doc : Option Doc) (body : Doc)
    (key : String) (hk : key ∈ plainFields) :
    getProp (updateArgsOf tza doc body).props key
      = (if getProp body.props key ≠ undefined then getProp body.props key
         else docRead doc key) ∧
    hasProp (updateArgsOf tza doc body).props key
      = decide (getProp body.props key ≠ undefined ∨ docRead doc key ≠ undefined) := by
  obtain ⟨u, hu1, hu2, hg, hh⟩ := updateArgsOf_getProp_plain tza doc body key hk
  rw [hg, hh, copyField_eq]
  by_cases hb : getProp body.props key = undefined
  · by_cases hd : docRead doc key = undefined
    · simp [hb, hd, hu1, hu2]
    · simp [hb, hd, getProp_setProp_same, hasProp_setProp]
  · simp [hb, getProp_setProp_same, hasProp_setProp]

theorem copyField_hasProp (doc : Option Doc) (body : Doc) (key k : String) (u : Doc) :
    hasProp (copyField doc body key u).props k
      = (hasProp u.props k ||
          (decide (key = k) &&
            decide (getProp body.props key ≠ undefined ∨ docRead doc key ≠ undefined))) := by
  rw [copyField_eq]
  by_cases hb : getProp body.props key = undefined
  · by_cases hd : docRead doc key = undefined
    · simp [hb, hd]
    · simp [hb, hd, hasProp_setProp, Bool.or_comm]
  · simp [hb, hasProp_setProp, Bool.or_comm]

theorem copyDate_hasProp (tza : Int → Int) (doc : Option Doc) (body : Doc)
    (sk dk yk k : String) (u : Doc) :
    hasProp (copyDate tza doc body sk dk yk u).props k
      = (hasProp u.props k ||
          ((decide (dk = k) || decide (yk = k)) &&
            (decide (getProp body.props sk ≠ undefined) || (dateRead doc dk yk).isSome))) := by
  rw [copyDate_eq]
  by_cases hb : getProp body.props sk = undefined
  · cases hr : dateRead doc dk yk with
    | none => simp [hb]
    | some r =>
      simp only [hb, ne_eq, not_true_eq_false, if_false, hasProp_setProp, decide_False,
        Bool.false_or, Option.isSome_some, Bool.and_true]
      cases hasProp u.props k <;> cases decide (dk = k) <;> cases decide (yk = k) <;> rfl
  · simp only [hb, ne_eq, not_false_eq_true, if_true, hasProp_setProp, decide_True,
      Bool.true_or, Bool.and_true]
    cases hasProp u.props k <;> cases decide (dk = k) <;> cases decide (yk = k) <;> rfl

theorem docRead_ne_of_dateRead (doc : Option Doc) (dk yk : String)
    (h : (dateRead doc dk yk).isSome = true) : docRead doc dk ≠ undefined := by
  unfold dateRead at h
  cases doc with
  | none => cases h
  | some d =>
    simp only at h
    intro hu
    simp only [docRead] at hu
    rw [hu] at h
    simp [typeofObject] at h

/-- Every key of the field set is a plain field that the body supplies or the stored
document has set, or the structure or the year of a date whose time stamp the body
supplies or whose structure is carried from the stored document. -/
theorem updateArgsOf_hasProp (tza : Int → Int) (doc : Option Doc) (body : Doc) (k : String)
    (h : hasProp (updateArgsOf tza doc body).props k = true) :
    (k ∈ plainFields ∧ (getProp body.props k ≠ undefined ∨ docRead doc k ≠ undefined)) ∨
    ∃ t ∈ dateFields, (k = t.2.1 ∨ k = t.2.2) ∧
      (getProp body.props t.1 ≠ undefined ∨ (dateRead doc t.2.1 t.2.2).isSome = true) := by
  rw [updateArgsOf_props] at h
  unfold scalarArgs at h
  simp only [copyDate_hasProp, copyField_hasProp, Doc.empty, hasProp, Bool.false_or,
    Bool.or_eq_true, Bool.and_eq_true, decide_eq_true_eq] at h
  rcases h with ((((h | h) | h) | h) | h) | h
  · obtain ⟨rfl, hc⟩ := h
    exact Or.inl ⟨by decide, hc⟩
  · obtain ⟨rfl, hc⟩ := h
    exact Or.inl ⟨by decide, hc⟩
  · obtain ⟨rfl, hc⟩ := h
    exact Or.inl ⟨by decide, hc⟩
  · obtain ⟨rfl, hc⟩ := h
    exact Or.inl ⟨by decide, hc⟩
  · obtain ⟨hk, hc⟩ := h
    refine Or.inr ⟨("drupal_register_timestamp", "drupal_register_date",
      "drupal_register_year"), by decide, ?_, hc⟩
    rcases hk with hk | hk
    · exact Or.inl hk.symm
    · exact Or.inr hk.symm
  · obtain ⟨hk, hc⟩ := h
    refine Or.inr ⟨("birthdate_timestamp", "birthdate", "birthdate_year"), by decide, ?_, hc⟩
    rcases hk with hk | hk
    · exact Or.inl hk.symm
    · exact Or.inr hk.symm

/-- C12 as stated fails: the stored document `{drupal_register_date: {}}` has no
registration year and the body `{email: "a@b.com"}` supplies none, yet the field set has
the key `drupal_register_year`, with the value `undefined`. -/
theorem no_invented_defaults_counterexample :
    updateArgsOf utc (some storedEmptyNoYear) emailBody
      = ⟨[("drupal_register_date", obj []), ("drupal_register_year", undefined)], none⟩ ∧
    hasProp (updateArgsOf utc (some storedEmptyNoYear) emailBody).props
      "drupal_register_year" = true ∧
    hasProp storedEmptyNoYear.props "drupal_register_year" = false ∧
    hasProp emailBody.props "drupal_register_year" = false ∧
    hasProp emailBody.props "drupal_register_timestamp" = false := by
  decide

/-- C12 as amended: every key of the field set is supplied by the body (a plain field
directly, an anniversary structure or its year through the time stamp), or is set in the
stored document, or is the year of an anniversary structure that is set in the stored
document; every field of the field set whose value is not `undefined` is supplied by the
body or set in the stored document; without a stored document every key is supplied by
the body; the field set has campaigns only if the body has; `email` is never a key of
the field set; and no stored document with the body `{email: "a@b.com", subscribed: true}`
gives exactly `{subscribed: true}`. -/
theorem no_invented_defaults (tza : Int → Int) (doc : Option Doc) (body : Doc) :
    (∀ k, hasProp (updateArgsOf tza doc body).props k = true →
      SuppliedBy body k ∨ docRead doc k ≠ undefined ∨
        ∃ t ∈ dateFields, k = t.2.2 ∧ docRead doc t.2.1 ≠ undefined) ∧
    (∀ k, getProp (updateArgsOf tza doc body).props k ≠ undefined →
      SuppliedBy body k ∨ docRead doc k ≠ undefined) ∧
    (doc = none → ∀ k, hasProp (updateArgsOf tza doc body).props k = true → SuppliedBy body k) ∧
    ((updateArgsOf tza doc body).campaigns ≠ none → body.campaigns ≠ none) ∧
    hasProp (updateArgsOf tza doc body).props "email" = false ∧
    updateArgsOf utc none subscribeBody = ⟨[("subscribed", .bool true)], none⟩ := by
  have key : ∀ k, hasProp (updateArgsOf tza doc body).props k = true →
      SuppliedBy body k ∨ docRead doc k ≠ undefined ∨
        ∃ t ∈ dateFields, k = t.2.2 ∧ docRead doc t.2.1 ≠ undefined := by
    intro k h
    rcases updateArgsOf_hasProp tza doc body k h with ⟨hk, hb | hd⟩ | ⟨t, ht, hk, hb | hd⟩
    · exact Or.inl (Or.inl ⟨hk, hb⟩)
    · exact Or.inr (Or.inl hd)
    · exact Or.inl (Or.inr ⟨t, ht, hk, hb⟩)
    · have hset := docRead_ne_of_dateRead doc t.2.1 t.2.2 hd
      rcases hk with hk | hk
      · exact Or.inr (Or.inl (hk ▸ hset))
      · exact Or.inr (Or.inr ⟨t, ht, hk, hset⟩)
  refine ⟨key, ?_, ?_, ?_, ?_, by decide⟩
  · intro k hv
    have h := hasProp_of_getProp_ne _ k hv
    rcases updateArgsOf_hasProp tza doc body k h with ⟨hk, hb | hd⟩ | ⟨t, ht, hk, hb | hd⟩
    · exact Or.inl (Or.inl ⟨hk, hb⟩)
    · exact Or.inr hd
    · exact Or.inl (Or.inr ⟨t, ht, hk, hb⟩)
    · have hset := docRead_ne_of_dateRead doc t.2.1 t.2.2 hd
      rcases hk with hk | hk
      · exact Or.inr (hk ▸ hset)
      · by_cases hb : getProp body.props t.1 = undefined
        · right
          obtain ⟨sk, dk, yk⟩ := t
          obtain ⟨hne, u, hu1, hu2, hg⟩ := updateArgsOf_getProp_date tza doc body sk dk yk ht
          simp only at hk hd hb
          subst hk
          rw [(hg k (Or.inr rfl)).1, copyDate_eq] at hv
          simp only [hb, ne_eq, not_true_eq_false, if_false] at hv
          cases hr : dateRead doc dk k with
          | none => rw [hr] at hd; cases hd
          | some r =>
            rw [hr] at hv
            simp only [getProp_setProp_same] at hv
            unfold dateRead at hr
            cases doc with
            | none => cases hr
            | some d =>
              simp only at hr
              split at hr
              · cases hr
                exact hv
              · cases hr
        · exact Or.inl (Or.inr ⟨t, ht, Or.inr hk, hb⟩)
  · rintro rfl k h
    rcases key k h with hs | hd | ⟨t, _, _, hd⟩
    · exact hs
    · exact absurd rfl hd
    · exact absurd rfl hd
  · intro h hb
    apply h
    rw [updateArgsOf_campaigns, hb]
  · by_contra h
    simp only [Bool.not_eq_false] at h
    rcases updateArgsOf_hasProp tza doc body "email" h with ⟨hk, _⟩ | ⟨t, ht, hk, _⟩
    · revert hk
      decide
    · simp only [dateFields, List.mem_cons, List.mem_singleton, List.not_mem_nil,
        or_false] at ht
      rcases ht with rfl | rfl <;> revert hk <;> decide

/-- C12 at the stored `{subscribed: true, mobile: "555"}` and the body
`{email: "a@b.com", subscribed: false}`: the key `mobile` of the field set is set in the
stored document, and `email` is not a key of the field set. -/
theorem no_invented_defaults_witness :
    hasProp (updateArgsOf utc (some storedSubscriber) unsubscribeBody).props "mobile" = true ∧
    (SuppliedBy unsubscribeBody "mobile" ∨
      docRead (some storedSubscriber) "mobile" ≠ undefined ∨
        ∃ t ∈ dateFields, "mobile" = t.2.2 ∧
          docRead (some storedSubscriber) t.2.1 ≠ undefined) ∧
    hasProp (updateArgsOf utc (some storedSubscriber) unsubscribeBody).props "email" = false :=
  ⟨by decide,
    (no_invented_defaults utc (some storedSubscriber) unsubscribeBody).1 "mobile" (by decide),
    (no_invented_defaults utc (some storedSubscriber) unsubscribeBody).2.2.2.2.1⟩

/-- C15, per-field independence: two bodies that agree on a plain field, `subscribed` among
them (both supply it with the same value, or neither supplies it), give field sets that
agree on that field, in presence and in value, whatever else the bodies hold. -/
theorem per_field_independent (tza : Int → Int) (doc : Option Doc) (body1 body2 : Doc)
    (key : String) (hk : key ∈ plainFields)
    (h : getProp body1.props key = getProp body2.props key) :
    hasProp (updateArgsOf tza doc body1).props key
        = hasProp (updateArgsOf tza doc body2).props key ∧
      getProp (updateArgsOf tza doc body1).props key
        = getProp (updateArgsOf tza doc body2).props key := by
  have h1 := updateArgsOf_plain_value tza doc body1 key hk
  have h2 := updateArgsOf_plain_value tza doc body2 key hk
  rw [h1.1, h1.2, h2.1, h2.2, h]
  exact ⟨rfl, rfl⟩

/-- C15 at the stored `{subscribed: true, mobile: "555"}`, for a body with `drupal_uid: 7`
and a body without: neither supplies `subscribed`, and both field sets have the stored
`subscribed: true`. -/
theorem per_field_independent_witness :
    "subscribed" ∈ plainFields ∧
    getProp uidBody.props "subscribed" = getProp emailBody.props "subscribed" ∧
    getProp uidBody.props "drupal_uid" ≠ getProp emailBody.props "drupal_uid" ∧
    getProp (updateArgsOf utc (some storedSubscriber) uidBody).props "subscribed" = .bool true ∧
    hasProp (updateArgsOf utc (some storedSubscriber) uidBody).props "subscribed"
        = hasProp (updateArgsOf utc (some storedSubscriber) emailBody).props "subscribed" ∧
      getProp (updateArgsOf utc (some storedSubscriber) uidBody).props "subscribed"
        = getProp (updateArgsOf utc (some storedSubscriber) emailBody).props "subscribed" :=
  ⟨by decide, by decide, by decide, by decide,
    per_field_independent utc (some storedSubscriber) uidBody emailBody "subscribed"
      (by decide) (by decide)⟩

/-! ## The responses of `get` and `updateUser`, and `isObjectEmpty` -/

/-- C16, the lookup key of `get`: the filter handed to `findOne` is `{email}` when the
query has a truthy `email`, whatever `drupal_uid` is; it is `{drupal_uid}` when the query
has no truthy `email` and has a truthy `drupal_uid`; it is empty when it has neither.  It
has at most one key and never both. -/
theorem get_lookup_key (findOne : JSObj → JSVal × JSVal) (reqQuery : JSObj) :
    get findOne reqQuery
      = getCallback (findOne (getQuery reqQuery)).1 (findOne (getQuery reqQuery)).2 ∧
    (truthy (getProp reqQuery "email") = true →
      getQuery reqQuery = [("email", getProp reqQuery "email")]) ∧
    (truthy (getProp reqQuery "email") = false → truthy (getProp reqQuery "drupal_uid") = true →
      getQuery reqQuery = [("drupal_uid", getProp reqQuery "drupal_uid")]) ∧
    (truthy (getProp reqQuery "email") = false →
      truthy (getProp reqQuery "drupal_uid") = false → getQuery reqQuery = []) ∧
    (getQuery reqQuery).length ≤ 1 ∧
    ¬ (hasProp (getQuery reqQuery) "email" = true ∧
        hasProp (getQuery reqQuery) "drupal_uid" = true) := by
  refine ⟨rfl, ?_, ?_, ?_, ?_, ?_⟩
  · intro h
    simp [getQuery, h, setProp]
  · intro h1 h2
    simp [getQuery, h1, h2, setProp]
  · intro h1 h2
    simp [getQuery, h1, h2]
  · unfold getQuery
    simp only
    split
    · simp [setProp]
    · split <;> simp [setProp]
  · unfold getQuery
    simp only
    split
    · simp [setProp, hasProp]
    · split <;> simp [setProp, hasProp]

/-- C16 at the query `{email: "a@b.com", drupal_uid: "7"}`: the filter is
`{email: "a@b.com"}`; at `{drupal_uid: "7"}` it is `{drupal_uid: "7"}`. -/
theorem get_lookup_key_witness :
    truthy (getProp [("email", str "a@b.com"), ("drupal_uid", str "7")] "email") = true ∧
    getQuery [("email", str "a@b.com"), ("drupal_uid", str "7")]
      = [("email", str "a@b.com")] ∧
    getQuery [("drupal_uid", str "7")] = [("drupal_uid", str "7")] :=
  ⟨by decide,
    (get_lookup_key sampleFindOne [("email", str "a@b.com"), ("drupal_uid", str "7")]).2.1
      (by decide),
    (get_lookup_key sampleFindOne [("drupal_uid", str "7")]).2.2.1 (by decide) (by decide)⟩

/-- C17, the response of `get`: for the error and the document with which the store calls
back, `get` makes exactly one call of `send`: status 500 with the error when there is an
error, status 200 with the document when there is no error and a document, status 204
with an empty object when there is neither. -/
theorem get_response (findOne : JSObj → JSVal × JSVal) (reqQuery : JSObj) (err doc : JSVal)
    (h : findOne (getQuery reqQuery) = (err, doc)) :
    (get findOne reqQuery).length = 1 ∧
    (truthy err = true → get findOne reqQuery = [⟨some 500, err⟩]) ∧
    (truthy err = false → truthy doc = true → get findOne reqQuery = [⟨some 200, doc⟩]) ∧
    (truthy err = false → truthy doc = false →
      get findOne reqQuery = [⟨some 204, obj []⟩]) := by
  have hg : get findOne reqQuery = getCallback err doc := by
    unfold get
    simp only [h]
  rw [hg]
  unfold getCallback
  refine ⟨?_, ?_, ?_, ?_⟩
  · split
    · rfl
    · split <;> rfl
  · intro h1
    simp [h1]
  · intro h1 h2
    simp [h1, h2]
  · intro h1 h2
    simp [h1, h2]

/-- C17 at the sample store: the document found is sent with status 200, an unknown email
gives status 204 with `{}`, and the failure of the store is sent with status 500. -/
theorem get_response_witness :
    sampleFindOne (getQuery [("email", str "a@b.com")])
      = (null, obj [("email", str "a@b.com")]) ∧
    get sampleFindOne [("email", str "a@b.com")]
      = [⟨some 200, obj [("email", str "a@b.com")]⟩] ∧
    get sampleFindOne [("email", str "x@y.org")] = [⟨some 204, obj []⟩] ∧
    get sampleFindOne [] = [⟨some 500, obj [("message", str "no filter")]⟩] :=
  ⟨by decide,
    (get_response sampleFindOne [("email", str "a@b.com")] null
      (obj [("email", str "a@b.com")]) (by decide)).2.2.1 (by decide) (by decide),
    (get_response sampleFindOne [("email", str "x@y.org")] null null (by decide)).2.2.2
      (by decide) (by decide),
    (get_response sampleFindOne [] (obj [("message", str "no filter")]) undefined
      (by decide)).2.1 (by decide)⟩

/-- C18 on the code: when the store calls back with an error, `updateUser` sends status
500 with the error and then sends `true` as well, two calls of `send`; without an error it
sends `true` once. -/
theorem updateUser_sends_twice_on_error :
    updateUser (fun _ _ => obj [("message", str "write failed")]) (str "a@b.com")
        ⟨[("subscribed", .bool true)], none⟩
      = [⟨some 500, obj [("message", str "write failed")]⟩, ⟨none, .bool true⟩] ∧
    (updateUser (fun _ _ => obj [("message", str "write failed")]) (str "a@b.com")
        ⟨[("subscribed", .bool true)], none⟩).length = 2 ∧
    updateUser (fun _ _ => null) (str "a@b.com") ⟨[("subscribed", .bool true)], none⟩
      = [⟨none, .bool true⟩] := by
  decide

/-- The calls of `send` by `updateUser`, for every error value. -/
theorem updateUser_responses (update : JSObj → Doc → JSVal) (email : JSVal) (args : Doc) :
    (truthy (update [("email", email)] args) = true →
      updateUser update email args
        = [⟨some 500, update [("email", email)] args⟩, ⟨none, .bool true⟩]) ∧
    (truthy (update [("email", email)] args) = false →
      updateUser update email args = [⟨none, .bool true⟩]) := by
  unfold updateUser updateUserCallback
  constructor <;> intro h <;> simp [h]

/-- The helper `isObjectEmpty` answers `true` exactly when the loop `for (key in obj)`
visits a key. -/
theorem isObjectEmpty_iff (o : JSVal) : isObjectEmpty o = true ↔ forInKeys o ≠ [] := by
  unfold isObjectEmpty
  cases forInKeys o <;> simp

/-- C19 on the code: `isObjectEmpty({})` is `false` and `isObjectEmpty({day: 1})` is
`true`, the reverse of what the claim, the name and the docstring of the helper say. -/
theorem isObjectEmpty_inverted :
    forInKeys (obj []) = [] ∧ isObjectEmpty (obj []) = false ∧
    forInKeys (obj [("day", num 1)]) = ["day"] ∧ isObjectEmpty (obj [("day", num 1)]) = true := by
  decide

end MbUsers
